import Mathlib

/-!
Shallow embedding of the farmer-registration service of the cropeye-server
repository (`farms/farmer_registration_service.py`), together with theorems
checking the specification's claims about it.

Modelling conventions:
* Python scalar values in the JSON-like request dictionaries become `Val`;
  Python dictionaries become association lists (`Dict`); machine floats are
  modelled by `Rat` (all arithmetic performed by the service on them is a
  single exact division, 43560 / (a*b)).
* The Django ORM store is an explicit `Store` record of entity lists; the
  primary-key order of a Django queryset (`.first()`) is the list order,
  since rows are only ever appended.
* `@transaction.atomic` is modelled by running the body as a state-passing
  computation in `Except` and discarding the final state on error
  (`register` below returns the original store in the error case).
* Side effects are recorded in an event trace (`Event`): entity writes, the
  per-target sync dispatches, and the transaction's durability point
  (`Event.commit`, emitted when the atomic block exits successfully).
-/

/-- Python-style scalar values as they appear in the JSON-like request
dictionaries.  Nested dictionaries and lists are modelled structurally
(`Dict`, `List RegGroup`, ...), so `Val` only needs scalar variants plus a
date variant for pre-parsed date objects. -/
inductive Val where
  | vNone
  | vBool (b : Bool)
  | vInt (n : Int)
  | vRat (q : Rat)
  | vStr (s : String)
  | vDate (y m d : Nat)
deriving Repr, DecidableEq

/-- Python truthiness of a scalar value. -/
def Val.truthy : Val → Bool
  | .vNone => false
  | .vBool b => b
  | .vInt n => n != 0
  | .vRat q => q != 0
  | .vStr s => s != ""
  | .vDate _ _ _ => true

/-- Python `==` on scalar values (numeric cross-type equality included). -/
def Val.pyEqB : Val → Val → Bool
  | .vInt n, .vRat q => ((n : Rat) == q)
  | .vRat q, .vInt n => (q == (n : Rat))
  | .vBool b, .vInt n => ((if b then (1 : Int) else 0) == n)
  | .vInt n, .vBool b => (n == (if b then (1 : Int) else 0))
  | .vBool b, .vRat q => ((if b then (1 : Rat) else 0) == q)
  | .vRat q, .vBool b => (q == (if b then (1 : Rat) else 0))
  | a, b => a == b

/-- A Python dictionary with string keys, as an association list. -/
abbrev Dict := List (String × Val)

/-- `d[k]` lookup distinguishing an absent key (`none`) from a key that is
present with value `None` (`some .vNone`). -/
def dget : Dict → String → Option Val
  | [], _ => none
  | (k, v) :: rest, key => if k = key then some v else dget rest key

/-- Python `d.get(k, default)`: the default applies only when the key is
absent, not when it is present with a falsy value. -/
def dgetD (d : Dict) (key : String) (dflt : Val) : Val :=
  match dget d key with
  | some v => v
  | none => dflt

/-- Truthiness of `d.get(k)`. -/
def truthyO : Option Val → Bool
  | some v => v.truthy
  | none => false

/-- Python `d[k] = v`: replace the first binding or append a new one. -/
def dset : Dict → String → Val → Dict
  | [], k, v => [(k, v)]
  | (k', v') :: rest, k, v =>
      if k' = k then (k', v) :: rest else (k', v') :: dset rest k v

/-- Python `k in d`. -/
def dHasKey (d : Dict) (k : String) : Bool := (dget d k).isSome

/-- Python falsiness of a whole dictionary (`not d`). -/
def dictFalsy (d : Dict) : Bool := d.isEmpty

/-- Python whitespace as stripped by `str.strip()`. -/
def isPyWs (c : Char) : Bool :=
  c = ' ' || c = Char.ofNat 9 || c = Char.ofNat 10 || c = Char.ofNat 13
    || c = Char.ofNat 11 || c = Char.ofNat 12

/-- Python `s.strip()`: leading and trailing whitespace removed
(structural, so that concrete runs reduce in the kernel). -/
def pyStrip (s : String) : String :=
  String.mk (((s.data.dropWhile isPyWs).reverse.dropWhile isPyWs).reverse)

/-- Split of a character list at a separator character. -/
def splitOnChar (sep : Char) : List Char → List (List Char)
  | [] => [[]]
  | c :: rest =>
      let r := splitOnChar sep rest
      if c = sep then [] :: r
      else
        match r with
        | h :: t => (c :: h) :: t
        | [] => [[c]]

/-- Numeric value of a list of ASCII digit characters. -/
def natOfDigits : List Char → Nat :=
  List.foldl (fun a c => a * 10 + (c.toNat - 48)) 0

/-- Python `s.isdigit()` (ASCII digits). -/
def isDigitStr (s : String) : Bool :=
  !s.data.isEmpty && s.data.all Char.isDigit

/-- Python `int(s)` for an all-digit string. -/
def toIntDigits (s : String) : Int := Int.ofNat (natOfDigits s.data)

/-- Helper for `pyTitle`: the boolean tracks whether the previous character
was alphabetic. -/
def pyTitleAux : Bool → List Char → List Char
  | _, [] => []
  | prevAlpha, c :: rest =>
      if c.isAlpha then
        (if prevAlpha then c.toLower else c.toUpper) :: pyTitleAux true rest
      else
        c :: pyTitleAux false rest

/-- Python `s.title()`: the first letter of every alphabetic run is
upper-cased, the rest lower-cased. -/
def pyTitle (s : String) : String := String.mk (pyTitleAux false s.data)

/-- Python `s.replace(und, sp)` for the single underscore-to-space use. -/
def underscoreToSpace (s : String) : String :=
  String.mk (s.data.map (fun c => if c = '_' then ' ' else c))

/-- Python `s.lower()`. -/
def strLower (s : String) : String := String.mk (s.data.map Char.toLower)

/-- Fractional value of a digit list read after a decimal point. -/
def fracOfDigits (cs : List Char) : Rat :=
  (natOfDigits cs : Rat) / ((10 : Rat) ^ cs.length)

/-- Unsigned decimal literal accepted by Python `float`:
`digits`, `digits.digits`, `digits.`, or `.digits`. -/
def parseUnsignedRat (cs : List Char) : Option Rat :=
  let ip := cs.takeWhile Char.isDigit
  let rest := cs.dropWhile Char.isDigit
  match rest with
  | [] => if ip.isEmpty then none else some (natOfDigits ip : Rat)
  | '.' :: fp =>
      if fp.all Char.isDigit && !(ip.isEmpty && fp.isEmpty) then
        some ((natOfDigits ip : Rat) + fracOfDigits fp)
      else none
  | _ => none

/-- Python `float(s)` on the decimal subset used by the service (optional
sign, optional fractional part; surrounding whitespace stripped).  Exponent
and special forms are not needed by any claim and are rejected. -/
def parseRatStr (s : String) : Option Rat :=
  match (pyStrip s).data with
  | [] => none
  | '-' :: cs => (parseUnsignedRat cs).map (fun q => -q)
  | '+' :: cs => parseUnsignedRat cs
  | cs => parseUnsignedRat cs

/-- Python `float(v)`: numbers convert, strings are parsed, anything else
raises `TypeError` (modelled as `none`; the service catches the error). -/
def pyFloat : Val → Option Rat
  | .vInt n => some (n : Rat)
  | .vRat q => some q
  | .vBool b => some (if b then 1 else 0)
  | .vStr s => parseRatStr s
  | _ => none

/-- Python `str(v)` as used in the service's f-string messages. -/
def pyStr : Val → String
  | .vStr s => s
  | .vInt n => toString n
  | .vRat q => toString q
  | .vBool b => if b then "True" else "False"
  | .vNone => "None"
  | .vDate y m d => toString y ++ "-" ++ toString m ++ "-" ++ toString d

/-- Database id accepted for an `objects.get(id=...)` call: a non-negative
integer or an all-digit string (the ORM coerces the latter). -/
def asId : Val → Option Nat
  | .vInt n => if 0 ≤ n then some n.toNat else none
  | .vStr s => if isDigitStr s then some (natOfDigits s.data) else none
  | _ => none

/-- A calendar date as produced by `datetime.strptime(..).date()`. -/
structure DateV where
  y : Nat
  m : Nat
  d : Nat
deriving Repr, DecidableEq

/-- `datetime.strptime(s, y-m-d format).date()`: three dash-separated
all-digit fields with the month and day in calendar range. -/
def parseDateStr (s : String) : Option DateV :=
  match splitOnChar '-' s.data with
  | [ys, ms, ds] =>
      if isDigitStr (String.mk ys) && isDigitStr (String.mk ms)
          && isDigitStr (String.mk ds) then
        let m := natOfDigits ms
        let d := natOfDigits ds
        if 1 ≤ m ∧ m ≤ 12 ∧ 1 ≤ d ∧ d ≤ 31 then
          some ⟨natOfDigits ys, m, d⟩
        else none
      else none
  | _ => none

/-- A geometry value as stored by the store's geometry engine.  GEOS parsing
of the pre-serialized string form is an external collaborator (out of scope
per the spec) and is modelled as accepting any string. -/
structure Geom where
  raw : String
deriving Repr, DecidableEq

/-- The default origin point used when an irrigation has no location. -/
def point00 : Geom := ⟨"POINT (0 0)"⟩

/-- A farmer user row.  Identity and profile fields keep the raw request
values; the phone is stored in normalized form (or `none` for no phone). -/
structure UserRec where
  id : Nat
  username : Val
  email : Val
  first_name : Val
  last_name : Val
  phone : Option String
  address : Val
  village : Val
  state : Val
  district : Val
  taluka : Val
  role : String
  createdBy : Option Nat
  industry : Option Nat
deriving Repr, DecidableEq

/-- A plot row. -/
structure PlotRec where
  id : Nat
  gat_number : Val
  plot_number : Val
  village : Val
  taluka : Val
  district : Val
  state : Val
  country : Val
  pin_code : Val
  farmer : Nat
  createdBy : Option Nat
  location : Option Geom
  boundary : Option Geom
deriving Repr, DecidableEq

/-- A farm row. -/
structure FarmRec where
  id : Nat
  address : Val
  area_size : Val
  farm_owner : Nat
  createdBy : Option Nat
  plot : Option Nat
  soil_type : Option Nat
  crop_type : Option Nat
  plantation_date : Option DateV
  spacing_a : Option Val
  spacing_b : Option Val
deriving Repr, DecidableEq

/-- A soil-type reference row (name unique in practice). -/
structure SoilTypeRec where
  id : Nat
  name : String
  description : String
deriving Repr, DecidableEq

/-- A crop-type reference row: name plus optional plantation linkage. -/
structure CropTypeRec where
  id : Nat
  crop_type : Val
  plantation_type : Option Nat
  planting_method : Option Nat
deriving Repr, DecidableEq

/-- A plantation-type reference row, scoped by (industry, code). -/
structure PTRec where
  id : Nat
  industry : Option Nat
  code : String
  name : String
  description : String
  is_active : Bool
deriving Repr, DecidableEq

/-- A planting-method reference row, scoped by
(plantation_type, industry, code). -/
structure PMRec where
  id : Nat
  plantation_type : Option Nat
  industry : Option Nat
  code : String
  name : String
  description : String
  is_active : Bool
deriving Repr, DecidableEq

/-- An irrigation-type reference row. -/
structure ITRec where
  id : Nat
  name : String
  description : String
deriving Repr, DecidableEq

/-- A farm-irrigation row. -/
structure IrrRec where
  id : Nat
  farm : Nat
  irrigation_type : Option Nat
  location : Geom
  irrStatus : Val
  motor_horsepower : Option Val
  pipe_width_inches : Option Val
  distance_motor_to_plot_m : Option Val
  plants_per_acre : Option Val
  flow_rate_lph : Option Val
  emitters_count : Option Val
deriving Repr, DecidableEq

/-- The persistent entity store.  Lists are append-only except for the
in-place crop-type update, so list order is primary-key order and
`.first()` on a filtered queryset is `List.head?` of the filtered list. -/
structure Store where
  users : List UserRec
  plots : List PlotRec
  farms : List FarmRec
  irrigations : List IrrRec
  soilTypes : List SoilTypeRec
  cropTypes : List CropTypeRec
  plantationTypes : List PTRec
  plantingMethods : List PMRec
  irrigationTypes : List ITRec
  roles : List String
  nextId : Nat
deriving Repr, DecidableEq

/-- A store with no rows and the farmer role installed. -/
def store0 : Store :=
  ⟨[], [], [], [], [], [], [], [], [], ["farmer"], 0⟩

/-- The registering field officer. -/
structure Operator where
  id : Nat
  username : String
  email : String
  industry : Option Nat
deriving Repr, DecidableEq

/-- Observable side effects of one registration call, in program order.
`commit` is the durability point of the atomic transaction; `sync` is one
dispatch of a plot to one downstream target. -/
inductive Event where
  | wUser (id : Nat)
  | wPlot (id : Nat)
  | wFarm (id : Nat)
  | wIrr (id : Nat)
  | sync (plotId : Nat) (target : String)
  | commit
deriving Repr, DecidableEq

/-- State threaded through the registration body: the store plus the trace
of events emitted so far. -/
structure RegState where
  store : Store
  trace : List Event
deriving Repr, DecidableEq

/-- Validation-failure messages (quotes of the source f-strings omitted). -/
abbrev Err := String

deriving instance DecidableEq for Except

/-- One plot-group of the request: the `plot` / `farm` / `irrigation`
sub-dictionaries (`none` for an absent or null sub-block). -/
structure RegGroup where
  plot : Option Dict := none
  farm : Option Dict := none
  irrigation : Option Dict := none
deriving Repr, DecidableEq

/-- The top-level request mapping.  `plotKey` is the legacy top-level
`plot` entry: `none` when the key is absent, `some none` when it is present
with a null/falsy non-dict value, `some (some d)` when it is a dictionary —
the distinction matters because the legacy-shape check is `key in data`. -/
structure RegData where
  farmer : Option Dict := none
  plots : Option (List RegGroup) := none
  plotKey : Option (Option Dict) := none
  farm : Option Dict := none
  irrigation : Option Dict := none
deriving Repr, DecidableEq

/-- One `created_entities` element. -/
structure CreatedEnt where
  plotE : Option PlotRec
  farmE : Option FarmRec
  irrE : Option IrrRec
deriving Repr, DecidableEq

/-- The success payload of a registration call. -/
structure RegResult where
  farmer : UserRec
  created_entities : List CreatedEnt
  message : String
deriving Repr, DecidableEq

/-- Outcome of invoking one downstream sync target: a returned boolean or a
raised fault with its description. -/
inductive SyncOutcome where
  | ret (b : Bool)
  | raise (msg : String)
deriving Repr, DecidableEq

/-- Behaviour oracle for the downstream sync targets: plot id and target
name determine the outcome. -/
abbrev SyncBehavior := Nat → String → SyncOutcome

/-- The fan-out report: names of successful targets and labelled failures. -/
structure SyncResults where
  successful : List String
  failed : List String
deriving Repr, DecidableEq

/-- Truthiness of an optional sub-dictionary (`entity_data.get(k)`): absent
or empty dictionaries are falsy. -/
def dTruthy : Option Dict → Bool
  | none => false
  | some d => !d.isEmpty

/-- `Except.isOk` helper. -/
def isErr : Except Err α → Bool
  | .error _ => true
  | .ok _ => false

/-- `_convert_geojson_to_geometry`: the service accepts a mapping with
`type`/`coordinates` keys or a pre-serialized string.  Request geometries
are modelled in their pre-serialized string form (the dict branch
serializes to the same string); any other value is a validation fault. -/
def convertGeo : Val → Except Err Geom
  | .vStr s => .ok ⟨s⟩
  | _ => .error "Invalid geometry data"

/-- Soil-type resolution in `_create_farm`: id lookup fails loudly when the
id is absent; name lookup is find-or-create with a generated description. -/
def resolveSoil (fd : Dict) (s : Store) : Except Err (Option Nat × Store) :=
  if truthyO (dget fd "soil_type_id") then
    match asId (dgetD fd "soil_type_id" .vNone) with
    | some n =>
        if s.soilTypes.any (fun r => r.id == n) then .ok (some n, s)
        else .error ("Soil type ID " ++ toString n ++ " not found")
    | none => .error "Soil type ID invalid"
  else if truthyO (dget fd "soil_type_name") then
    let nm := pyStr (dgetD fd "soil_type_name" .vNone)
    match s.soilTypes.find? (fun r => r.name == nm) with
    | some r => .ok (some r.id, s)
    | none =>
        .ok (some s.nextId,
          { s with
            soilTypes := s.soilTypes ++ [⟨s.nextId, nm, "Auto-created: " ++ nm⟩],
            nextId := s.nextId + 1 })
  else .ok (none, s)

/-- Free-text plantation-type resolution (the `try` block of
`_create_farm`): code within the industry, name within the industry, code
ignoring industry, name ignoring industry, then `get_or_create` scoped to
(industry, code) with a title-cased name.  `dbFault` injects a store-level
exception at the auto-create step: the service catches it, logs, and
leaves the resolution at no match. -/
def textCascadePT (dbFault : Bool) (ind : Option Nat) (c : String)
    (s : Store) : Option PTRec × Store :=
  match (s.plantationTypes.filter (fun r => r.code == c && r.industry == ind)).head? with
  | some r => (some r, s)
  | none =>
  match (s.plantationTypes.filter (fun r => r.name == c && r.industry == ind)).head? with
  | some r => (some r, s)
  | none =>
  match (s.plantationTypes.filter (fun r => r.code == c)).head? with
  | some r => (some r, s)
  | none =>
  match (s.plantationTypes.filter (fun r => r.name == c)).head? with
  | some r => (some r, s)
  | none =>
  if dbFault then (none, s)
  else
    match (s.plantationTypes.filter (fun r => r.industry == ind && r.code == c)).head? with
    | some r => (some r, s)
    | none =>
        let nm := pyTitle (underscoreToSpace c)
        let r : PTRec :=
          ⟨s.nextId, ind, c, nm, "Auto-created plantation type: " ++ nm, true⟩
        (some r,
          { s with plantationTypes := s.plantationTypes ++ [r],
                   nextId := s.nextId + 1 })

/-- Plantation-type resolution of `_create_farm`: id hint (hard failure on a
missing id), then string hint via the free-text cascade.  A truthy non-id,
non-string hint falls through both `isinstance` branches and resolves to no
match (the already-an-object branch is not representable in request data). -/
def resolvePT (fd : Dict) (ind : Option Nat) (s : Store) :
    Except Err (Option PTRec × Store) :=
  if truthyO (dget fd "plantation_type_id") then
    match asId (dgetD fd "plantation_type_id" .vNone) with
    | some n =>
        match s.plantationTypes.find? (fun r => r.id == n) with
        | some r => .ok (some r, s)
        | none => .error ("Plantation type ID " ++ toString n ++ " not found")
    | none => .error "Plantation type ID invalid"
  else
    match dget fd "plantation_type" with
    | some (.vStr c) =>
        if c ≠ "" then .ok (textCascadePT false ind c s)
        else .ok (none, s)
    | _ => .ok (none, s)

/-- The plantation-type-scoped stage of the free-text planting-method
lookup: code then name within the resolved plantation type, and only when
one resolved. -/
def scopedPM (pt : Option Nat) (c : String) (s : Store) : Option PMRec :=
  match pt with
  | some _ =>
      match (s.plantingMethods.filter (fun r => r.code == c && r.plantation_type == pt)).head? with
      | some r => some r
      | none =>
          (s.plantingMethods.filter (fun r => r.name == c && r.plantation_type == pt)).head?
  | none => none

/-- Free-text planting-method resolution: the scoped stage (`scopedPM`),
then code and name ignoring scope, then `get_or_create` scoped to
(plantation_type, industry, code).  `dbFault` as in `textCascadePT`. -/
def textCascadePM (dbFault : Bool) (ind : Option Nat) (pt : Option Nat)
    (c : String) (s : Store) : Option PMRec × Store :=
  match scopedPM pt c s with
  | some r => (some r, s)
  | none =>
  match (s.plantingMethods.filter (fun r => r.code == c)).head? with
  | some r => (some r, s)
  | none =>
  match (s.plantingMethods.filter (fun r => r.name == c)).head? with
  | some r => (some r, s)
  | none =>
  if dbFault then (none, s)
  else
    match (s.plantingMethods.filter
        (fun r => r.plantation_type == pt && r.industry == ind && r.code == c)).head? with
    | some r => (some r, s)
    | none =>
        let nm := pyTitle (underscoreToSpace c)
        let r : PMRec :=
          ⟨s.nextId, pt, ind, c, nm, "Auto-created planting method: " ++ nm, true⟩
        (some r,
          { s with plantingMethods := s.plantingMethods ++ [r],
                   nextId := s.nextId + 1 })

/-- Planting-method resolution of `_create_farm` (id hint hard, string hint
via the cascade scoped by the resolved plantation type). -/
def resolvePM (fd : Dict) (ind : Option Nat) (pt : Option Nat) (s : Store) :
    Except Err (Option PMRec × Store) :=
  if truthyO (dget fd "planting_method_id") then
    match asId (dgetD fd "planting_method_id" .vNone) with
    | some n =>
        match s.plantingMethods.find? (fun r => r.id == n) with
        | some r => .ok (some r, s)
        | none => .error ("Planting method ID " ++ toString n ++ " not found")
    | none => .error "Planting method ID invalid"
  else
    match dget fd "planting_method" with
    | some (.vStr c) =>
        if c ≠ "" then .ok (textCascadePM false ind pt c s)
        else .ok (none, s)
    | _ => .ok (none, s)

/-- Crop-type resolution against resolved plantation data (the block after
the two cascades in `_create_farm`): with plantation data, search by the
exact (name, plantation_type, planting_method) triple, create when missing,
and run the in-place update branch when the found row's fields differ;
without plantation data, find-or-create by name alone. -/
def cropTriple (nameV : Val) (pt pm : Option Nat) (s : Store) :
    CropTypeRec × Store :=
  if pt.isSome || pm.isSome then
    match s.cropTypes.find?
        (fun c => Val.pyEqB c.crop_type nameV && c.plantation_type == pt
                    && c.planting_method == pm) with
    | some c =>
        if c.plantation_type ≠ pt ∨ c.planting_method ≠ pm then
          let c' := { c with plantation_type := pt, planting_method := pm }
          let upd := s.cropTypes.map (fun x => if x.id == c.id then c' else x)
          (c', { s with cropTypes := upd })
        else (c, s)
    | none =>
        let c : CropTypeRec := ⟨s.nextId, nameV, pt, pm⟩
        (c, { s with cropTypes := s.cropTypes ++ [c], nextId := s.nextId + 1 })
  else
    match s.cropTypes.find? (fun c => Val.pyEqB c.crop_type nameV) with
    | some c => (c, s)
    | none =>
        let c : CropTypeRec := ⟨s.nextId, nameV, none, none⟩
        (c, { s with cropTypes := s.cropTypes ++ [c], nextId := s.nextId + 1 })

/-- The industry of the registering operator, as read by `_create_farm`
(`field_officer.industry` when a field officer with an industry is given). -/
def opInd (op : Option Operator) : Option Nat :=
  match op with
  | some o => o.industry
  | none => none

/-- Crop-type resolution of `_create_farm`: id hint (hard failure when the
id is absent), else the name branch with its embedded plantation-type and
planting-method resolution, else no crop type. -/
def resolveCrop (fd : Dict) (op : Option Operator) (s : Store) :
    Except Err (Option Nat × Store) :=
  if truthyO (dget fd "crop_type_id") then
    match asId (dgetD fd "crop_type_id" .vNone) with
    | some n =>
        if s.cropTypes.any (fun r => r.id == n) then .ok (some n, s)
        else .error ("Crop type ID " ++ toString n ++ " not found")
    | none => .error "Crop type ID invalid"
  else if truthyO (dget fd "crop_type_name") then
    match resolvePT fd (opInd op) s with
    | .error e => .error e
    | .ok (pt, s1) =>
    match resolvePM fd (opInd op) (pt.map (fun r => r.id)) s1 with
    | .error e => .error e
    | .ok (pm, s2) =>
        let res := cropTriple (dgetD fd "crop_type_name" .vNone)
          (pt.map (fun r => r.id)) (pm.map (fun r => r.id)) s2
        .ok (some res.1.id, res.2)
  else .ok (none, s)

/-- Irrigation-type resolution of `_create_farm_irrigation`: id lookup hard,
name lookup find-or-create. -/
def resolveIT (idta : Dict) (s : Store) : Except Err (Option ITRec × Store) :=
  if truthyO (dget idta "irrigation_type_id") then
    match asId (dgetD idta "irrigation_type_id" .vNone) with
    | some n =>
        match s.irrigationTypes.find? (fun r => r.id == n) with
        | some r => .ok (some r, s)
        | none => .error ("Irrigation type ID " ++ toString n ++ " not found")
    | none => .error "Irrigation type ID invalid"
  else if truthyO (dget idta "irrigation_type_name") then
    let nm := pyStr (dgetD idta "irrigation_type_name" .vNone)
    match s.irrigationTypes.find? (fun r => r.name == nm) with
    | some r => .ok (some r, s)
    | none =>
        let r : ITRec := ⟨s.nextId, nm, "Auto-created: " ++ nm⟩
        .ok (some r,
          { s with irrigationTypes := s.irrigationTypes ++ [r],
                   nextId := s.nextId + 1 })
  else .ok (none, s)

/-- The `plants_per_acre` derivation of `_create_farm_irrigation`: for a
drip-named irrigation type, when the supplied value is falsy and both
spacing entries are truthy and parse as positive numbers, the value becomes
43560 / (spacing_a * spacing_b); any parse failure or non-positive spacing
keeps the supplied value, raising nothing. -/
def computePPA (it : Option ITRec) (ppaIn : Option Val) (fd : Dict) :
    Option Val :=
  match it with
  | some rec' =>
      if strLower rec'.name = "drip" ∧ truthyO ppaIn = false then
        if dictFalsy fd = false ∧ truthyO (dget fd "spacing_a") = true
            ∧ truthyO (dget fd "spacing_b") = true then
          match pyFloat (dgetD fd "spacing_a" .vNone),
                pyFloat (dgetD fd "spacing_b" .vNone) with
          | some a, some b =>
              if 0 < a ∧ 0 < b then some (.vRat (43560 / (a * b))) else ppaIn
          | _, _ => ppaIn
        else ppaIn
      else ppaIn
  | none => ppaIn

/-- Plantation-date handling of `_create_farm`: an ISO string is parsed
(soft-fail to no date), a date object is taken as is; other truthy values
are not dates and also soft-fail. -/
def parsePDate (v : Option Val) : Option DateV :=
  match v with
  | some (.vStr s) => if s ≠ "" then parseDateStr s else none
  | some (.vDate y m d) => if (Val.vDate y m d).truthy then some ⟨y, m, d⟩ else none
  | _ => none

/-- One plain-field merge step of the orchestrator (`FieldMerger`): copy
the top-level value into the group data when the group value is falsy and
the top-level value is truthy. -/
def fb (k : String) (top fd : Dict) : Dict :=
  if truthyO (dget fd k) = false ∧ truthyO (dget top k) = true then
    dset fd k (dgetD top k .vNone)
  else fd

/-- The plantation-type merge step: top-level data applies only when both
the `_id` key and the bare key are wholly absent from the group data; a
numeric-looking top-level string becomes an id reference. -/
def fbPT (top fd : Dict) : Dict :=
  if dHasKey fd "plantation_type_id" = false ∧ dHasKey fd "plantation_type" = false then
    if truthyO (dget top "plantation_type_id") then
      dset fd "plantation_type_id" (dgetD top "plantation_type_id" .vNone)
    else if truthyO (dget top "plantation_type") then
      match dgetD top "plantation_type" .vNone with
      | .vStr s =>
          if isDigitStr s then dset fd "plantation_type_id" (.vInt (toIntDigits s))
          else dset fd "plantation_type" (.vStr s)
      | v => dset fd "plantation_type" v
    else fd
  else fd

/-- The planting-method merge step, same key-presence rule. -/
def fbPM (top fd : Dict) : Dict :=
  if dHasKey fd "planting_method_id" = false ∧ dHasKey fd "planting_method" = false then
    if truthyO (dget top "planting_method_id") then
      dset fd "planting_method_id" (dgetD top "planting_method_id" .vNone)
    else if truthyO (dget top "planting_method") then
      match dgetD top "planting_method" .vNone with
      | .vStr s =>
          if isDigitStr s then dset fd "planting_method_id" (.vInt (toIntDigits s))
          else dset fd "planting_method" (.vStr s)
      | v => dset fd "planting_method" v
    else fd
  else fd

/-- The whole field merge of the orchestrator, in source order. -/
def mergeFarmData (g top : Dict) : Dict :=
  fb "spacing_b" top
    (fb "spacing_a" top
      (fbPM top
        (fbPT top
          (fb "crop_type_name" top
            (fb "soil_type_name" top
              (fb "area_size" top
                (fb "address" top
                  (fb "plantation_date" top g))))))))

/-- The country-code strip of `_create_farmer`: a digit list that starts
with the 91 country prefix and is 12 digits long loses the 2-digit
prefix. -/
def stripCC (ds : List Char) : List Char :=
  match ds with
  | '9' :: '1' :: rest => if ds.length = 12 then rest else ds
  | _ => ds

/-- Phone normalization of `_create_farmer`: falsy input becomes no phone;
a truthy string is stripped of non-digits, a 12-digit result with the 91
country prefix loses the prefix, and the remainder must be exactly 10
digits.  A truthy non-string phone raises (`.strip()` on a non-string). -/
def normalizePhone (v : Option Val) : Except Err (Option String) :=
  match v with
  | some (.vStr s) =>
      if s ≠ "" then
        let t := pyStrip s
        if t = "" then .ok none
        else
          let core := stripCC (t.data.filter Char.isDigit)
          if core.length = 10 then .ok (some (String.mk core))
          else .error ("Phone number must be 10 digits (provided: " ++ t ++ ")")
      else .ok none
  | some w =>
      if w.truthy then .error "phone_number must be a string"
      else .ok none
  | none => .ok none

/-- Required farmer fields, in source order. -/
def farmerRequired : List String :=
  ["username", "email", "password", "first_name", "last_name"]

/-- `_create_farmer`: field presence, username/email uniqueness, phone
normalization and uniqueness, the operator-industry precondition, the
farmer-role precondition, then the user row (operator recorded as creator,
operator's industry assigned). -/
def createFarmer (fdO : Dict) (op : Option Operator) (st : RegState) :
    Except Err (UserRec × RegState) :=
  if dictFalsy fdO then .error "Farmer data is required"
  else
  match farmerRequired.find? (fun k => !truthyO (dget fdO k)) with
  | some k => .error ("Farmer " ++ k ++ " is required")
  | none =>
  if st.store.users.any (fun u => Val.pyEqB u.username (dgetD fdO "username" .vNone)) then
    .error ("Username " ++ pyStr (dgetD fdO "username" .vNone) ++ " already exists")
  else if st.store.users.any (fun u => Val.pyEqB u.email (dgetD fdO "email" .vNone)) then
    .error ("Email " ++ pyStr (dgetD fdO "email" .vNone) ++ " already exists")
  else
    match normalizePhone (dget fdO "phone_number") with
    | .error e => .error e
    | .ok ph =>
        if ph.isSome && st.store.users.any (fun u => u.phone == ph) then
          .error ("User with phone number " ++ ph.getD "" ++ " already exists")
        else if (match op with | some o => o.industry.isNone | none => false) then
          .error "Field officer must be assigned to an industry before creating farmers"
        else if !(st.store.roles.contains "farmer") then
          .error "Farmer role not found in system"
        else
          let u : UserRec :=
            ⟨st.store.nextId, dgetD fdO "username" .vNone, dgetD fdO "email" .vNone,
              dgetD fdO "first_name" .vNone, dgetD fdO "last_name" .vNone, ph,
              dgetD fdO "address" (.vStr ""), dgetD fdO "village" (.vStr ""),
              dgetD fdO "state" (.vStr ""), dgetD fdO "district" (.vStr ""),
              dgetD fdO "taluka" (.vStr ""), "farmer",
              op.map (fun o => o.id),
              (match op with | some o => o.industry | none => none)⟩
          .ok (u,
            ⟨{ st.store with users := st.store.users ++ [u],
                             nextId := st.store.nextId + 1 },
              st.trace ++ [Event.wUser u.id]⟩)

/-- Required plot fields, in source order. -/
def plotRequired : List String := ["gat_number", "village", "district", "state"]

/-- The duplicate-plot natural-key check of `_create_plot`: an existing row
matching (gat_number, plot_number, village, district), with an absent
plot_number defaulting to the empty string. -/
def dupPlot (pd : Dict) (p : PlotRec) : Bool :=
  Val.pyEqB p.gat_number (dgetD pd "gat_number" .vNone)
    && Val.pyEqB p.plot_number (dgetD pd "plot_number" (.vStr ""))
    && Val.pyEqB p.village (dgetD pd "village" .vNone)
    && Val.pyEqB p.district (dgetD pd "district" .vNone)

/-- `_create_plot`: falsy data skips, required fields, the duplicate-plot
natural-key check, optional geometry conversion, then the plot row. -/
def createPlot (pd : Dict) (farmer : UserRec) (op : Option Operator)
    (st : RegState) : Except Err (Option PlotRec × RegState) :=
  if dictFalsy pd then .ok (none, st)
  else
  match plotRequired.find? (fun k => !truthyO (dget pd k)) with
  | some k => .error ("Plot " ++ k ++ " is required")
  | none =>
  if st.store.plots.any (dupPlot pd) then
    .error ("Plot GAT " ++ pyStr (dgetD pd "gat_number" .vNone) ++ " in "
      ++ pyStr (dgetD pd "village" .vNone) ++ " already exists")
  else
    match (if truthyO (dget pd "location") then
             (convertGeo (dgetD pd "location" .vNone)).map some
           else .ok none) with
    | .error e => .error e
    | .ok loc =>
    match (if truthyO (dget pd "boundary") then
             (convertGeo (dgetD pd "boundary" .vNone)).map some
           else .ok none) with
    | .error e => .error e
    | .ok bnd =>
        let p : PlotRec :=
          ⟨st.store.nextId, dgetD pd "gat_number" .vNone,
            dgetD pd "plot_number" (.vStr ""), dgetD pd "village" .vNone,
            dgetD pd "taluka" (.vStr ""), dgetD pd "district" .vNone,
            dgetD pd "state" .vNone, dgetD pd "country" (.vStr "India"),
            dgetD pd "pin_code" (.vStr ""), farmer.id,
            op.map (fun o => o.id), loc, bnd⟩
        .ok (some p,
          ⟨{ st.store with plots := st.store.plots ++ [p],
                           nextId := st.store.nextId + 1 },
            st.trace ++ [Event.wPlot p.id]⟩)

/-- `_create_farm`: falsy data skips, required address and area, soil and
crop resolution (the latter embedding the plantation-type/planting-method
cascades and the crop triple logic), plantation-date soft parse, then the
farm row. -/
def createFarm (fd : Dict) (farmer : UserRec) (op : Option Operator)
    (plot : Option PlotRec) (st : RegState) :
    Except Err (Option FarmRec × RegState) :=
  if dictFalsy fd then .ok (none, st)
  else if !truthyO (dget fd "address") then .error "Farm address is required"
  else if !truthyO (dget fd "area_size") then .error "Farm area_size is required"
  else
    match resolveSoil fd st.store with
    | .error e => .error e
    | .ok (soil, s1) =>
    match resolveCrop fd op s1 with
    | .error e => .error e
    | .ok (crop, s2) =>
        let f : FarmRec :=
          ⟨s2.nextId, dgetD fd "address" .vNone, dgetD fd "area_size" .vNone,
            farmer.id, op.map (fun o => o.id), plot.map (fun p => p.id),
            soil, crop, parsePDate (dget fd "plantation_date"),
            dget fd "spacing_a", dget fd "spacing_b"⟩
        .ok (some f,
          ⟨{ s2 with farms := s2.farms ++ [f], nextId := s2.nextId + 1 },
            st.trace ++ [Event.wFarm f.id]⟩)

/-- `_create_farm_irrigation`: falsy data skips, irrigation-type
resolution, the plants-per-acre derivation, the location precedence
(explicit geometry, then the owning plot's location, then the origin
point), then the irrigation row. -/
def createFarmIrrigation (idta : Dict) (farm : FarmRec) (_op : Option Operator)
    (fd : Dict) (st : RegState) : Except Err (Option IrrRec × RegState) :=
  if dictFalsy idta then .ok (none, st)
  else
    match resolveIT idta st.store with
    | .error e => .error e
    | .ok (it, s1) =>
        let ppa := computePPA it (dget idta "plants_per_acre") fd
        match (if truthyO (dget idta "location") then
                 (convertGeo (dgetD idta "location" .vNone)).map some
               else .ok none) with
        | .error e => .error e
        | .ok locO =>
            let loc :=
              match locO with
              | some gm => gm
              | none =>
                  match farm.plot with
                  | some pid =>
                      match s1.plots.find? (fun p => p.id == pid) with
                      | some p =>
                          match p.location with
                          | some gm => gm
                          | none => point00
                      | none => point00
                  | none => point00
            let r : IrrRec :=
              ⟨s1.nextId, farm.id, it.map (fun x => x.id), loc,
                dgetD idta "status" (.vBool true),
                dget idta "motor_horsepower", dget idta "pipe_width_inches",
                dget idta "distance_motor_to_plot_m", ppa,
                dget idta "flow_rate_lph", dget idta "emitters_count"⟩
            .ok (some r,
              ⟨{ s1 with irrigations := s1.irrigations ++ [r],
                         nextId := s1.nextId + 1 },
                st.trace ++ [Event.wIrr r.id]⟩)

/-- The fixed ordered list of downstream sync targets of
`_sync_plot_to_fastapi_services`. -/
def syncServices : List String :=
  ["events.py", "soil.py/main.py", "Admin.py", "ET.py", "field.py"]

/-- Recording of one target's outcome: truthy result is a success, a falsy
result or raised fault is a labelled failure. -/
def syncStep (beh : SyncBehavior) (pid : Nat) (acc : SyncResults)
    (name : String) : SyncResults :=
  match beh pid name with
  | .ret true => { acc with successful := acc.successful ++ [name] }
  | .ret false => { acc with failed := acc.failed ++ [name ++ " (returned False)"] }
  | .raise m => { acc with failed := acc.failed ++ [name ++ " (" ++ m ++ ")"] }

/-- The per-target loop: each target is dispatched (one `sync` event) and
its outcome recorded independently of the others. -/
def syncFold (beh : SyncBehavior) (pid : Nat) :
    List String → SyncResults → List Event → SyncResults × List Event
  | [], acc, tr => (acc, tr)
  | n :: rest, acc, tr =>
      syncFold beh pid rest (syncStep beh pid acc n) (tr ++ [Event.sync pid n])

/-- `_sync_plot_to_fastapi_services`: total over every behaviour of the
downstream targets — it reports, it never raises. -/
def syncPlot (beh : SyncBehavior) (pid : Nat) (st : RegState) :
    SyncResults × RegState :=
  let r := syncFold beh pid syncServices ⟨[], []⟩ st.trace
  (r.1, ⟨st.store, r.2⟩)

/-- The per-group plot phase of the orchestrator loop: a plot is created
only when the group has truthy plot data. -/
def stepPlot (g : RegGroup) (farmer : UserRec) (op : Option Operator)
    (st : RegState) : Except Err (Option PlotRec × RegState) :=
  if dTruthy g.plot then createPlot (g.plot.getD []) farmer op st
  else .ok (none, st)

/-- The merged farm data of a group: the field merge runs only when the
farm phase runs, otherwise the empty dictionary is carried. -/
def groupFd (g : RegGroup) (topFarm : Dict) (plotO : Option PlotRec) : Dict :=
  if dTruthy g.farm && plotO.isSome then mergeFarmData (g.farm.getD []) topFarm
  else []

/-- The per-group farm phase: a farm is created only when the group has
truthy farm data and a plot was created. -/
def stepFarm (g : RegGroup) (topFarm : Dict) (farmer : UserRec)
    (op : Option Operator) (plotO : Option PlotRec) (st : RegState) :
    Except Err (Option FarmRec × RegState) :=
  if dTruthy g.farm && plotO.isSome then
    createFarm (groupFd g topFarm plotO) farmer op plotO st
  else .ok (none, st)

/-- The per-group irrigation phase: an irrigation is created only when the
group has truthy irrigation data and a farm was created. -/
def stepIrr (g : RegGroup) (fd : Dict) (op : Option Operator)
    (farmO : Option FarmRec) (st : RegState) :
    Except Err (Option IrrRec × RegState) :=
  match farmO with
  | some f =>
      if dTruthy g.irrigation then
        createFarmIrrigation (g.irrigation.getD []) f op fd st
      else .ok (none, st)
  | none => .ok (none, st)

/-- The per-group sync phase: the fan-out runs once per created plot. -/
def stepSync (beh : SyncBehavior) (plotO : Option PlotRec) (st : RegState) :
    RegState :=
  match plotO with
  | some p => (syncPlot beh p.id st).2
  | none => st

/-- The per-group loop of `register_complete_farmer`: plot (when the group
has truthy plot data), then the field merge and farm (when truthy farm data
and a plot exist), then irrigation (when truthy irrigation data and a farm
exist), the result bundle, and the per-plot sync fan-out. -/
def processGroups (beh : SyncBehavior) (topFarm : Dict) (farmer : UserRec)
    (op : Option Operator) :
    List RegGroup → List CreatedEnt → RegState →
    Except Err (List CreatedEnt × RegState)
  | [], acc, st => .ok (acc, st)
  | g :: rest, acc, st =>
      match stepPlot g farmer op st with
      | .error e => .error e
      | .ok (plotO, st1) =>
          match stepFarm g topFarm farmer op plotO st1 with
          | .error e => .error e
          | .ok (farmO, st2) =>
              match stepIrr g (groupFd g topFarm plotO) op farmO st2 with
              | .error e => .error e
              | .ok (irrO, st3) =>
                  processGroups beh topFarm farmer op rest
                    (acc ++ [⟨plotO, farmO, irrO⟩]) (stepSync beh plotO st3)

/-- The plot-group normalization of `register_complete_farmer`: when the
top-level `plot` key is present and no non-empty `plots` list is, the
legacy top-level `plot`/`farm`/`irrigation` entries are wrapped into a
single group. -/
def normalizeGroups (d : RegData) : List RegGroup :=
  let pd := d.plots.getD []
  if d.plotKey.isSome ∧ pd.isEmpty then
    pd ++ [⟨d.plotKey.getD none, d.farm, d.irrigation⟩]
  else pd

/-- The body of `register_complete_farmer` (inside the atomic
transaction): farmer creation, group normalization, the per-group loop. -/
def registerBody (beh : SyncBehavior) (d : RegData) (op : Option Operator)
    (st : RegState) : Except Err (RegResult × RegState) :=
  match createFarmer (d.farmer.getD []) op st with
  | .error e => .error e
  | .ok (farmer, st1) =>
      match processGroups beh (d.farm.getD []) farmer op (normalizeGroups d) [] st1 with
      | .error e => .error e
      | .ok (ents, st2) =>
          .ok (⟨farmer, ents, "Farmer registration completed successfully"⟩, st2)

/-- `register_complete_farmer` under `@transaction.atomic`: a successful
body commits (the `commit` event is the durability point, after every
write and every sync dispatch of the body); any fault rolls the store back
to its initial state and surfaces as a wrapped validation fault.  The
events dispatched before a fault are not retained in the error result
(the model reports no trace there), but no commit ever happens on that
path. -/
def register (beh : SyncBehavior) (d : RegData) (op : Option Operator)
    (s : Store) : Store × List Event × Except Err RegResult :=
  match registerBody beh d op ⟨s, []⟩ with
  | .ok (r, st) => (st.store, st.trace ++ [Event.commit], .ok r)
  | .error e => (s, [], .error ("Registration failed: " ++ e))

/-- The claim's four-stage lookup cascade for PlantationType, written from
the specification's words: code within the industry scope, name within the
industry scope, code ignoring industry, name ignoring industry. -/
def cascadeLookupPT (s : Store) (ind : Option Nat) (c : String) : Option PTRec :=
  (((s.plantationTypes.filter (fun r => r.code == c && r.industry == ind)).head?).orElse
    (fun _ => (((s.plantationTypes.filter (fun r => r.name == c && r.industry == ind)).head?).orElse
      (fun _ => (((s.plantationTypes.filter (fun r => r.code == c)).head?).orElse
        (fun _ => (s.plantationTypes.filter (fun r => r.name == c)).head?))))))

/-- The lookup cascade the code actually implements for PlantingMethod,
written from the amended claim's words: when a plantation type resolved,
code within that plantation type then name within it; then code ignoring
scope, then name ignoring scope. -/
def cascadeLookupPM (s : Store) (pt : Option Nat) (c : String) : Option PMRec :=
  let scopedHit : Option PMRec :=
    match pt with
    | some _ =>
        ((s.plantingMethods.filter (fun r => r.code == c && r.plantation_type == pt)).head?).orElse
          (fun _ => (s.plantingMethods.filter (fun r => r.name == c && r.plantation_type == pt)).head?)
    | none => none
  scopedHit.orElse
    (fun _ => (((s.plantingMethods.filter (fun r => r.code == c)).head?).orElse
      (fun _ => (s.plantingMethods.filter (fun r => r.name == c)).head?)))

/-- Boolean test for a sync-dispatch event. -/
def isSyncEvt : Event → Bool
  | .sync _ _ => true
  | _ => false

/-- Concrete farmer data used by the concrete scenarios. -/
def farmerD : Dict :=
  [("username", .vStr "ram"), ("email", .vStr "ram@example.in"),
   ("password", .vStr "pw"), ("first_name", .vStr "Ram"),
   ("last_name", .vStr "T"), ("phone_number", .vStr "+91 98765 43210")]

/-- Concrete plot data used by the concrete scenarios. -/
def plotD : Dict :=
  [("gat_number", .vStr "123"), ("village", .vStr "X"),
   ("district", .vStr "Y"), ("state", .vStr "MH")]

/-- A second plot with a distinct natural key. -/
def plotD2 : Dict :=
  [("gat_number", .vStr "124"), ("village", .vStr "X"),
   ("district", .vStr "Y"), ("state", .vStr "MH")]

/-- A field officer with an industry assignment. -/
def opA : Operator := ⟨100, "fo", "fo@example.in", some 1⟩

/-- Downstream behaviour where every target succeeds. -/
def behT : SyncBehavior := fun _ _ => .ret true

/-- Downstream behaviour where the third target raises and the others
succeed. -/
def behBoom : SyncBehavior :=
  fun _ n => if n = "Admin.py" then .raise "boom" else .ret true

/-- A two-plot registration request (plots only, no farm blocks). -/
def dTwoPlots : RegData :=
  { farmer := some farmerD,
    plots := some [⟨some plotD, none, none⟩, ⟨some plotD2, none, none⟩] }

/-- A request whose farm block lacks the required address, so the farm step
faults after the plot has been created. -/
def dFaultyFarm : RegData :=
  { farmer := some farmerD,
    plots := some [⟨some plotD, some [("area_size", .vStr "2")], none⟩] }

/-- A request carrying top-level farm and irrigation blocks but no `plot`
key and no plots list. -/
def dLegacyFarmOnly : RegData :=
  { farmer := some farmerD,
    farm := some [("address", .vStr "top"), ("area_size", .vStr "3")],
    irrigation := some [("irrigation_type_name", .vStr "Drip")] }

/-- The seven plain fallback fields of the field merge. -/
def mergePlainFields : List String :=
  ["plantation_date", "address", "area_size", "soil_type_name",
   "crop_type_name", "spacing_a", "spacing_b"]

/-- Effective (truthiness-normalized) value of a dictionary entry: falsy
entries and absent entries are indistinguishable to every later consumer,
which reads them through truthy `get` checks. -/
def normV (o : Option Val) : Option Val := if truthyO o then o else none

/-- Equality of the four entity tables of two stores (reference tables may
differ): what a reference-resolution step leaves untouched. -/
def storeCoreEq (s t : Store) : Prop :=
  t.users = s.users ∧ t.plots = s.plots ∧ t.farms = s.farms
    ∧ t.irrigations = s.irrigations

/-- Membership monotonicity of the four entity tables: rows present before
a step are still present after it. -/
def storeMono (s t : Store) : Prop :=
  (∀ x, x ∈ s.users → x ∈ t.users) ∧ (∀ x, x ∈ s.plots → x ∈ t.plots)
    ∧ (∀ x, x ∈ s.farms → x ∈ t.farms)
    ∧ (∀ x, x ∈ s.irrigations → x ∈ t.irrigations)

/-- All entities recorded in one `created_entities` element are rows of the
store. -/
def goodEnt (s : Store) (e : CreatedEnt) : Prop :=
  (∀ p, e.plotE = some p → p ∈ s.plots)
    ∧ (∀ f, e.farmE = some f → f ∈ s.farms)
    ∧ (∀ i, e.irrE = some i → i ∈ s.irrigations)

/-- A group farm sub-block with an empty address, an explicitly null
plantation_type, and a truthy spacing_a. -/
def gC5 : Dict :=
  [("address", .vStr ""), ("plantation_type", .vNone), ("spacing_a", .vStr "5")]

/-- A top-level farm block with a truthy address, a numeric-looking
plantation_type, and a free-text planting_method. -/
def topC5 : Dict :=
  [("address", .vStr "topAddr"), ("plantation_type", .vStr "12"),
   ("planting_method", .vStr "drip_line")]

/-- A planting method whose code matches in the operator industry but under
a different plantation type. -/
def pmX1 : PMRec := ⟨0, some 50, some 1, "x", "X1", "", true⟩

/-- A planting method with the same code under the resolved plantation type
but a different industry. -/
def pmX2 : PMRec := ⟨1, some 60, some 2, "x", "X2", "", true⟩

/-- Store holding the two `x`-coded planting methods. -/
def sPMcex : Store := { store0 with plantingMethods := [pmX1, pmX2], nextId := 2 }

/-- Store holding one CropType named Wheat with no plantation data. -/
def sWheat : Store :=
  { store0 with cropTypes := [⟨0, .vStr "Wheat", none, none⟩], nextId := 1 }

/-- A drip irrigation type row. -/
def itDrip : ITRec := ⟨0, "Drip", "x"⟩

/-- Farm data with 10 by 10 spacing. -/
def fdSpacing : Dict := [("spacing_a", .vInt 10), ("spacing_b", .vInt 10)]

/-- Farm data with a zero spacing_a. -/
def fdSpacing0 : Dict := [("spacing_a", .vInt 0), ("spacing_b", .vInt 10)]

/-- A minimal farm row for irrigation scenarios. -/
def farmC7 : FarmRec :=
  ⟨0, .vStr "a", .vStr "1", 0, none, none, none, none, none, none, none⟩

/-- Irrigation data naming the drip type with no explicit plants_per_acre. -/
def idtaDrip : Dict := [("irrigation_type_name", .vStr "Drip")]

/-- A single-plot registration request. -/
def dOnePlot : RegData :=
  { farmer := some farmerD, plots := some [⟨some plotD, none, none⟩] }

/-- A second farmer with distinct identity fields. -/
def farmerD2 : Dict :=
  [("username", .vStr "sita"), ("email", .vStr "sita@example.in"),
   ("password", .vStr "pw"), ("first_name", .vStr "Sita"),
   ("last_name", .vStr "P"), ("phone_number", .vStr "+91 91234 56789")]

/-- A second registration of the same plot by a different farmer. -/
def dOnePlotDup : RegData :=
  { farmer := some farmerD2, plots := some [⟨some plotD, none, none⟩] }

/-! ## Dictionary lemmas -/

theorem dget_dset (d : Dict) (k k' : String) (v : Val) :
    dget (dset d k v) k' = if k' = k then some v else dget d k' := by
  induction d with
  | nil =>
      by_cases h : k' = k
      · simp [dset, dget, h]
      · simp [dset, dget, h, Ne.symm h]
  | cons p rest ih =>
      obtain ⟨k0, v0⟩ := p
      by_cases h0 : k0 = k
      · by_cases h : k' = k
        · simp [dset, dget, h0, h]
        · simp [dset, dget, h0, h, Ne.symm h]
      · by_cases h1 : k0 = k'
        · have h : ¬(k' = k) := fun hh => h0 (h1.trans hh)
          simp [dset, dget, h0, h1, h, ih]
        · simp [dset, dget, h0, h1, ih]

theorem fb_get (k : String) (top fd : Dict) (k' : String) :
    dget (fb k top fd) k' =
      if k' = k ∧ truthyO (dget fd k) = false ∧ truthyO (dget top k) = true
      then dget top k else dget fd k' := by
  unfold fb
  split
  · next hc =>
      rw [dget_dset]
      rcases hc with ⟨h1, h2⟩
      by_cases h : k' = k
      · cases hv : dget top k with
        | none => rw [hv] at h2; simp [truthyO] at h2
        | some v => rw [hv] at h2; simp [h, h1, h2, dgetD, hv]
      · simp [h, h1, h2]
  · next hc =>
      by_cases h : k' = k
      · subst h
        simp [hc]
      · simp [h]

theorem fbPT_get_other (top fd : Dict) (k' : String)
    (h1 : ¬ k' = "plantation_type_id") (h2 : ¬ k' = "plantation_type") :
    dget (fbPT top fd) k' = dget fd k' := by
  unfold fbPT
  repeat' split
  all_goals simp [dget_dset, h1, h2]

theorem fbPM_get_other (top fd : Dict) (k' : String)
    (h1 : ¬ k' = "planting_method_id") (h2 : ¬ k' = "planting_method") :
    dget (fbPM top fd) k' = dget fd k' := by
  unfold fbPM
  repeat' split
  all_goals simp [dget_dset, h1, h2]

theorem merge_plain_get (g top : Dict) (k : String) (hk : k ∈ mergePlainFields) :
    dget (mergeFarmData g top) k =
      if truthyO (dget g k) = false ∧ truthyO (dget top k) = true
      then dget top k else dget g k := by
  simp only [mergePlainFields, List.mem_cons, List.not_mem_nil, or_false] at hk
  rcases hk with rfl|rfl|rfl|rfl|rfl|rfl|rfl
  all_goals
    simp [mergeFarmData, fb_get, fbPT_get_other, fbPM_get_other]

/-- C5 — FieldMerger precedence: for each of the seven plain fields the
group's own value wins when present and non-empty, otherwise the top-level
value is used as fallback (when both are empty the effective, truthiness-
normalized value of the merged field equals the top level's); for
plantation_type and planting_method the fallback happens only when both the
`_id` key and the bare key are wholly absent from the group data (an
explicitly-provided-but-falsy value is respected), and a numeric-looking
top-level string becomes an id reference while any other truthy value is
kept as a free-text code/name. -/
theorem c5_field_merger (g top : Dict) :
    (∀ k, k ∈ mergePlainFields →
       (truthyO (dget g k) = true → dget (mergeFarmData g top) k = dget g k)
     ∧ (truthyO (dget g k) = false → truthyO (dget top k) = true →
          dget (mergeFarmData g top) k = dget top k)
     ∧ (truthyO (dget g k) = false →
          normV (dget (mergeFarmData g top) k) = normV (dget top k)))
  ∧ ((dHasKey g "plantation_type_id" = true ∨ dHasKey g "plantation_type" = true) →
       dget (mergeFarmData g top) "plantation_type_id" = dget g "plantation_type_id"
     ∧ dget (mergeFarmData g top) "plantation_type" = dget g "plantation_type")
  ∧ (dHasKey g "plantation_type_id" = false → dHasKey g "plantation_type" = false →
       (truthyO (dget top "plantation_type_id") = true →
          dget (mergeFarmData g top) "plantation_type_id" = dget top "plantation_type_id")
     ∧ (truthyO (dget top "plantation_type_id") = false →
         ∀ s', dget top "plantation_type" = some (.vStr s') →
           (Val.vStr s').truthy = true →
           (isDigitStr s' = true →
              dget (mergeFarmData g top) "plantation_type_id" = some (.vInt (toIntDigits s'))
            ∧ dget (mergeFarmData g top) "plantation_type" = none)
         ∧ (isDigitStr s' = false →
              dget (mergeFarmData g top) "plantation_type" = some (.vStr s')))
     ∧ (truthyO (dget top "plantation_type_id") = false →
         ∀ v, dget top "plantation_type" = some v → v.truthy = true →
           (∀ s', ¬ v = Val.vStr s') →
           dget (mergeFarmData g top) "plantation_type" = some v))
  ∧ ((dHasKey g "planting_method_id" = true ∨ dHasKey g "planting_method" = true) →
       dget (mergeFarmData g top) "planting_method_id" = dget g "planting_method_id"
     ∧ dget (mergeFarmData g top) "planting_method" = dget g "planting_method")
  ∧ (dHasKey g "planting_method_id" = false → dHasKey g "planting_method" = false →
       (truthyO (dget top "planting_method_id") = true →
          dget (mergeFarmData g top) "planting_method_id" = dget top "planting_method_id")
     ∧ (truthyO (dget top "planting_method_id") = false →
         ∀ s', dget top "planting_method" = some (.vStr s') →
           (Val.vStr s').truthy = true →
           (isDigitStr s' = true →
              dget (mergeFarmData g top) "planting_method_id" = some (.vInt (toIntDigits s'))
            ∧ dget (mergeFarmData g top) "planting_method" = none)
         ∧ (isDigitStr s' = false →
              dget (mergeFarmData g top) "planting_method" = some (.vStr s')))
     ∧ (truthyO (dget top "planting_method_id") = false →
         ∀ v, dget top "planting_method" = some v → v.truthy = true →
           (∀ s', ¬ v = Val.vStr s') →
           dget (mergeFarmData g top) "planting_method" = some v)) := by
  refine ⟨?_, ?_, ?_, ?_, ?_⟩
  · intro k hk
    have hm := merge_plain_get g top k hk
    refine ⟨?_, ?_, ?_⟩
    · intro h; rw [hm]; simp [h]
    · intro h1 h2; rw [hm]; simp [h1, h2]
    · intro h1
      by_cases h2 : truthyO (dget top k) = true
      · rw [hm]; simp [h1, h2, normV]
      · have h2' : truthyO (dget top k) = false := by simpa using h2
        rw [hm]; simp [h1, h2', normV]
  · intro h
    rcases h with h|h
    all_goals
      simp only [dHasKey] at h
      have h2 := Option.ne_none_iff_isSome.mpr h
      exact ⟨by simp [mergeFarmData, fb_get, fbPM_get_other, fbPT, dHasKey, h2],
             by simp [mergeFarmData, fb_get, fbPM_get_other, fbPT, dHasKey, h2]⟩
  · intro h1 h0
    simp only [dHasKey] at h1 h0
    have h1' : dget g "plantation_type_id" = none := by simpa using h1
    have h0' : dget g "plantation_type" = none := by simpa using h0
    refine ⟨?_, ?_, ?_⟩
    · intro ht
      cases hvv : dget top "plantation_type_id" with
      | none => rw [hvv] at ht; simp [truthyO] at ht
      | some v =>
          rw [hvv] at ht; simp only [truthyO] at ht
          simp [mergeFarmData, fb_get, fbPM_get_other, fbPT, dHasKey, h1', h0',
            hvv, ht, dget_dset, dgetD, truthyO]
    · intro ht s' hv hs
      simp only [truthyO] at ht
      constructor
      · intro hd
        exact ⟨by simp [mergeFarmData, fb_get, fbPM_get_other, fbPT, dHasKey, h1', h0',
                    ht, hv, hs, hd, dget_dset, dgetD, truthyO],
               by simp [mergeFarmData, fb_get, fbPM_get_other, fbPT, dHasKey, h1', h0',
                    ht, hv, hs, hd, dget_dset, dgetD, truthyO]⟩
      · intro hd
        simp [mergeFarmData, fb_get, fbPM_get_other, fbPT, dHasKey, h1', h0',
          ht, hv, hs, hd, dget_dset, dgetD, truthyO]
    · intro ht v hv htv hns
      simp only [truthyO] at ht
      cases v with
      | vStr s => exact absurd rfl (hns s)
      | vNone => simp [Val.truthy] at htv
      | vBool b =>
          simp [mergeFarmData, fb_get, fbPM_get_other, fbPT, dHasKey, h1', h0',
            ht, hv, htv, dget_dset, dgetD, truthyO]
      | vInt n =>
          simp [mergeFarmData, fb_get, fbPM_get_other, fbPT, dHasKey, h1', h0',
            ht, hv, htv, dget_dset, dgetD, truthyO]
      | vRat q =>
          simp [mergeFarmData, fb_get, fbPM_get_other, fbPT, dHasKey, h1', h0',
            ht, hv, htv, dget_dset, dgetD, truthyO]
      | vDate y m dd =>
          simp [mergeFarmData, fb_get, fbPM_get_other, fbPT, dHasKey, h1', h0',
            ht, hv, htv, dget_dset, dgetD, truthyO]
  · intro h
    rcases h with h|h
    all_goals
      simp only [dHasKey] at h
      have h2 := Option.ne_none_iff_isSome.mpr h
      exact ⟨by simp [mergeFarmData, fb_get, fbPT_get_other, fbPM, dHasKey, h2],
             by simp [mergeFarmData, fb_get, fbPT_get_other, fbPM, dHasKey, h2]⟩
  · intro h1 h0
    simp only [dHasKey] at h1 h0
    have h1' : dget g "planting_method_id" = none := by simpa using h1
    have h0' : dget g "planting_method" = none := by simpa using h0
    refine ⟨?_, ?_, ?_⟩
    · intro ht
      cases hvv : dget top "planting_method_id" with
      | none => rw [hvv] at ht; simp [truthyO] at ht
      | some v =>
          rw [hvv] at ht; simp only [truthyO] at ht
          simp [mergeFarmData, fb_get, fbPT_get_other, fbPM, dHasKey, h1', h0',
            hvv, ht, dget_dset, dgetD, truthyO]
    · intro ht s' hv hs
      simp only [truthyO] at ht
      constructor
      · intro hd
        exact ⟨by simp [mergeFarmData, fb_get, fbPT_get_other, fbPM, dHasKey, h1', h0',
                    ht, hv, hs, hd, dget_dset, dgetD, truthyO],
               by simp [mergeFarmData, fb_get, fbPT_get_other, fbPM, dHasKey, h1', h0',
                    ht, hv, hs, hd, dget_dset, dgetD, truthyO]⟩
      · intro hd
        simp [mergeFarmData, fb_get, fbPT_get_other, fbPM, dHasKey, h1', h0',
          ht, hv, hs, hd, dget_dset, dgetD, truthyO]
    · intro ht v hv htv hns
      simp only [truthyO] at ht
      cases v with
      | vStr s => exact absurd rfl (hns s)
      | vNone => simp [Val.truthy] at htv
      | vBool b =>
          simp [mergeFarmData, fb_get, fbPT_get_other, fbPM, dHasKey, h1', h0',
            ht, hv, htv, dget_dset, dgetD, truthyO]
      | vInt n =>
          simp [mergeFarmData, fb_get, fbPT_get_other, fbPM, dHasKey, h1', h0',
            ht, hv, htv, dget_dset, dgetD, truthyO]
      | vRat q =>
          simp [mergeFarmData, fb_get, fbPT_get_other, fbPM, dHasKey, h1', h0',
            ht, hv, htv, dget_dset, dgetD, truthyO]
      | vDate y m dd =>
          simp [mergeFarmData, fb_get, fbPT_get_other, fbPM, dHasKey, h1', h0',
            ht, hv, htv, dget_dset, dgetD, truthyO]

/-- Witness for C5 at concrete dictionaries: the empty group address takes
the top-level one, the explicitly null plantation_type is respected (the
numeric-looking top-level plantation_type does not become an id), the
absent planting_method takes the top-level free text, and the truthy group
spacing survives. -/
theorem c5_field_merger_w :
    dget (mergeFarmData gC5 topC5) "address" = some (.vStr "topAddr")
  ∧ dget (mergeFarmData gC5 topC5) "plantation_type" = some .vNone
  ∧ dget (mergeFarmData gC5 topC5) "plantation_type_id" = none
  ∧ dget (mergeFarmData gC5 topC5) "planting_method" = some (.vStr "drip_line")
  ∧ dget (mergeFarmData gC5 topC5) "spacing_a" = some (.vStr "5") := by
  refine ⟨?_, ?_, ?_, ?_, ?_⟩
  · exact (((c5_field_merger gC5 topC5).1 "address" (by decide)).2.1
      (by decide) (by decide)).trans (by decide)
  · exact (((c5_field_merger gC5 topC5).2.1 (Or.inr (by decide))).2).trans (by decide)
  · exact (((c5_field_merger gC5 topC5).2.1 (Or.inr (by decide))).1).trans (by decide)
  · exact ((((c5_field_merger gC5 topC5).2.2.2.2 (by decide) (by decide)).2.1
      (by decide) "drip_line" (by decide) (by decide)).2 (by decide))
  · exact (((c5_field_merger gC5 topC5).1 "spacing_a" (by decide)).1 (by decide)).trans
      (by decide)


theorem resolveSoil_core {fd : Dict} {s : Store} {x : Option Nat} {s' : Store}
    (h : resolveSoil fd s = .ok (x, s')) : storeCoreEq s s' := by
  unfold resolveSoil at h
  try simp only [] at h
  repeat' split at h
  all_goals
    first
      | (exact Except.noConfusion h)
      | (simp only [Except.ok.injEq, Prod.mk.injEq] at h
         obtain ⟨h1, h2⟩ := h
         subst h2
         simp [storeCoreEq])

theorem textCascadePT_core (f : Bool) (ind : Option Nat) (c : String) (s : Store) :
    storeCoreEq s (textCascadePT f ind c s).2 := by
  unfold textCascadePT
  repeat' split
  all_goals simp [storeCoreEq]

theorem resolvePT_core {fd : Dict} {ind : Option Nat} {s : Store}
    {x : Option PTRec} {s' : Store}
    (h : resolvePT fd ind s = .ok (x, s')) : storeCoreEq s s' := by
  unfold resolvePT at h
  try simp only [] at h
  repeat' split at h
  all_goals
    first
      | (exact Except.noConfusion h)
      | (simp only [Except.ok.injEq, Prod.mk.injEq] at h
         obtain ⟨h1, h2⟩ := h
         subst h2
         simp [storeCoreEq])
      | (simp only [Except.ok.injEq] at h
         have h2 : _ = s' := congrArg Prod.snd h
         exact h2 ▸ textCascadePT_core false _ _ s)

theorem textCascadePM_core (f : Bool) (ind pt : Option Nat) (c : String) (s : Store) :
    storeCoreEq s (textCascadePM f ind pt c s).2 := by
  unfold textCascadePM
  repeat' split
  all_goals simp [storeCoreEq]

theorem resolvePM_core {fd : Dict} {ind pt : Option Nat} {s : Store}
    {x : Option PMRec} {s' : Store}
    (h : resolvePM fd ind pt s = .ok (x, s')) : storeCoreEq s s' := by
  unfold resolvePM at h
  try simp only [] at h
  repeat' split at h
  all_goals
    first
      | (exact Except.noConfusion h)
      | (simp only [Except.ok.injEq, Prod.mk.injEq] at h
         obtain ⟨h1, h2⟩ := h
         subst h2
         simp [storeCoreEq])
      | (simp only [Except.ok.injEq] at h
         have h2 : _ = s' := congrArg Prod.snd h
         exact h2 ▸ textCascadePM_core false _ _ _ s)

theorem cropTriple_core (nameV : Val) (pt pm : Option Nat) (s : Store) :
    storeCoreEq s (cropTriple nameV pt pm s).2 := by
  unfold cropTriple
  repeat' split
  all_goals simp [storeCoreEq]

theorem resolveCrop_core {fd : Dict} {op : Option Operator} {s : Store}
    {x : Option Nat} {s' : Store}
    (h : resolveCrop fd op s = .ok (x, s')) : storeCoreEq s s' := by
  unfold resolveCrop at h
  split at h
  · try simp only [] at h
    repeat' split at h
    all_goals
      first
        | (exact Except.noConfusion h)
        | (simp only [Except.ok.injEq, Prod.mk.injEq] at h
           obtain ⟨h1, h2⟩ := h
           subst h2
           simp [storeCoreEq])
  · split at h
    · cases hpt : resolvePT fd (opInd op) s with
      | error e => rw [hpt] at h; exact Except.noConfusion h
      | ok pr =>
          obtain ⟨pt, s1⟩ := pr
          rw [hpt] at h
          simp only [] at h
          cases hpm : resolvePM fd (opInd op) (pt.map fun r => r.id) s1 with
          | error e => rw [hpm] at h; exact Except.noConfusion h
          | ok pr2 =>
              obtain ⟨pm, s2⟩ := pr2
              rw [hpm] at h
              simp only [Except.ok.injEq, Prod.mk.injEq] at h
              obtain ⟨h1, h2⟩ := h
              have e1 := resolvePT_core hpt
              have e2 := resolvePM_core hpm
              have e3 := cropTriple_core (dgetD fd "crop_type_name" Val.vNone)
                (pt.map fun r => r.id) (pm.map fun r => r.id) s2
              rw [h2] at e3
              exact ⟨by rw [e3.1, e2.1, e1.1], by rw [e3.2.1, e2.2.1, e1.2.1],
                     by rw [e3.2.2.1, e2.2.2.1, e1.2.2.1],
                     by rw [e3.2.2.2, e2.2.2.2, e1.2.2.2]⟩
    · simp only [Except.ok.injEq, Prod.mk.injEq] at h
      obtain ⟨h1, h2⟩ := h
      subst h2
      simp [storeCoreEq]

theorem resolveIT_core {idta : Dict} {s : Store} {x : Option ITRec} {s' : Store}
    (h : resolveIT idta s = .ok (x, s')) : storeCoreEq s s' := by
  unfold resolveIT at h
  try simp only [] at h
  repeat' split at h
  all_goals
    first
      | (exact Except.noConfusion h)
      | (simp only [Except.ok.injEq, Prod.mk.injEq] at h
         obtain ⟨h1, h2⟩ := h
         subst h2
         simp [storeCoreEq])

theorem storeCoreEq_mono {s t : Store} (h : storeCoreEq s t) : storeMono s t := by
  obtain ⟨h1, h2, h3, h4⟩ := h
  exact ⟨fun x hx => h1 ▸ hx, fun x hx => h2 ▸ hx,
         fun x hx => h3 ▸ hx, fun x hx => h4 ▸ hx⟩

theorem storeMono_refl (s : Store) : storeMono s s :=
  ⟨fun _ h => h, fun _ h => h, fun _ h => h, fun _ h => h⟩

theorem storeMono_trans {s t u : Store} (h1 : storeMono s t)
    (h2 : storeMono t u) : storeMono s u :=
  ⟨fun x hx => h2.1 x (h1.1 x hx), fun x hx => h2.2.1 x (h1.2.1 x hx),
   fun x hx => h2.2.2.1 x (h1.2.2.1 x hx),
   fun x hx => h2.2.2.2 x (h1.2.2.2 x hx)⟩

theorem goodEnt_mono {s t : Store} (hm : storeMono s t) {e : CreatedEnt}
    (h : goodEnt s e) : goodEnt t e :=
  ⟨fun p hp => hm.2.1 p (h.1 p hp), fun f hf => hm.2.2.1 f (h.2.1 f hf),
   fun i hi => hm.2.2.2 i (h.2.2 i hi)⟩


theorem createFarmer_mono {fd : Dict} {op : Option Operator} {st : RegState}
    {u : UserRec} {st' : RegState}
    (h : createFarmer fd op st = .ok (u, st')) :
    storeMono st.store st'.store ∧ u ∈ st'.store.users := by
  unfold createFarmer at h
  try simp only [] at h
  repeat' split at h
  all_goals
    first
      | (exact Except.noConfusion h)
      | (simp only [Except.ok.injEq, Prod.mk.injEq] at h
         obtain ⟨h1, h2⟩ := h
         subst h2
         subst h1
         refine ⟨⟨fun x hx => List.mem_append_left _ hx, fun x hx => hx,
                  fun x hx => hx, fun x hx => hx⟩, ?_⟩
         exact List.mem_append_right _ (by simp))

theorem createPlot_mono {pd : Dict} {farmer : UserRec} {op : Option Operator}
    {st : RegState} {po : Option PlotRec} {st' : RegState}
    (h : createPlot pd farmer op st = .ok (po, st')) :
    storeMono st.store st'.store ∧ (∀ p, po = some p → p ∈ st'.store.plots) := by
  unfold createPlot at h
  try simp only [] at h
  repeat' split at h
  all_goals
    first
      | (exact Except.noConfusion h)
      | (simp only [Except.ok.injEq, Prod.mk.injEq] at h
         obtain ⟨h1, h2⟩ := h
         subst h2
         subst h1
         exact ⟨storeMono_refl _, by simp⟩)
      | (simp only [Except.ok.injEq, Prod.mk.injEq] at h
         obtain ⟨h1, h2⟩ := h
         subst h2
         subst h1
         refine ⟨⟨fun x hx => hx, fun x hx => List.mem_append_left _ hx,
                  fun x hx => hx, fun x hx => hx⟩, ?_⟩
         intro p hp
         injection hp with h3
         subst h3
         exact List.mem_append_right _ (by simp))

theorem createFarm_mono {fd : Dict} {farmer : UserRec} {op : Option Operator}
    {plot : Option PlotRec} {st : RegState} {fo : Option FarmRec} {st' : RegState}
    (h : createFarm fd farmer op plot st = .ok (fo, st')) :
    storeMono st.store st'.store ∧ (∀ f, fo = some f → f ∈ st'.store.farms) := by
  unfold createFarm at h
  split at h
  · simp only [Except.ok.injEq, Prod.mk.injEq] at h
    obtain ⟨h1, h2⟩ := h
    subst h2
    subst h1
    exact ⟨storeMono_refl _, by simp⟩
  · split at h
    · exact Except.noConfusion h
    · split at h
      · exact Except.noConfusion h
      · cases hs : resolveSoil fd st.store with
        | error e => rw [hs] at h; exact Except.noConfusion h
        | ok pr =>
            obtain ⟨soil, s1⟩ := pr
            rw [hs] at h
            simp only [] at h
            cases hc : resolveCrop fd op s1 with
            | error e => rw [hc] at h; exact Except.noConfusion h
            | ok pr2 =>
                obtain ⟨crop, s2⟩ := pr2
                rw [hc] at h
                simp only [Except.ok.injEq, Prod.mk.injEq] at h
                obtain ⟨h1, h2⟩ := h
                subst h2
                subst h1
                have e1 := resolveSoil_core hs
                have e2 := resolveCrop_core hc
                constructor
                · refine ⟨fun x hx => ?_, fun x hx => ?_, fun x hx => ?_, fun x hx => ?_⟩
                  · show x ∈ s2.users
                    rw [e2.1, e1.1]; exact hx
                  · show x ∈ s2.plots
                    rw [e2.2.1, e1.2.1]; exact hx
                  · show x ∈ s2.farms ++ [_]
                    rw [e2.2.2.1, e1.2.2.1]
                    exact List.mem_append_left _ hx
                  · show x ∈ s2.irrigations
                    rw [e2.2.2.2, e1.2.2.2]; exact hx
                · intro f hf
                  injection hf with h3
                  subst h3
                  exact List.mem_append_right _ (by simp)

theorem createIrr_mono {idta : Dict} {farm : FarmRec} {op : Option Operator}
    {fd : Dict} {st : RegState} {io : Option IrrRec} {st' : RegState}
    (h : createFarmIrrigation idta farm op fd st = .ok (io, st')) :
    storeMono st.store st'.store ∧ (∀ i, io = some i → i ∈ st'.store.irrigations) := by
  unfold createFarmIrrigation at h
  split at h
  · simp only [Except.ok.injEq, Prod.mk.injEq] at h
    obtain ⟨h1, h2⟩ := h
    subst h2
    subst h1
    exact ⟨storeMono_refl _, by simp⟩
  · cases hit : resolveIT idta st.store with
    | error e => rw [hit] at h; exact Except.noConfusion h
    | ok pr =>
        obtain ⟨it, s1⟩ := pr
        rw [hit] at h
        simp only [] at h
        repeat' split at h
        all_goals
          first
            | (exact Except.noConfusion h)
            | (simp only [Except.ok.injEq, Prod.mk.injEq] at h
               obtain ⟨h1, h2⟩ := h
               subst h2
               subst h1
               have e1 := resolveIT_core hit
               constructor
               · refine ⟨fun x hx => ?_, fun x hx => ?_, fun x hx => ?_, fun x hx => ?_⟩
                 · show x ∈ s1.users
                   rw [e1.1]; exact hx
                 · show x ∈ s1.plots
                   rw [e1.2.1]; exact hx
                 · show x ∈ s1.farms
                   rw [e1.2.2.1]; exact hx
                 · show x ∈ s1.irrigations ++ [_]
                   rw [e1.2.2.2]
                   exact List.mem_append_left _ hx
               · intro i hi
                 injection hi with h3
                 subst h3
                 exact List.mem_append_right _ (by simp))


theorem stepPlot_mono {g : RegGroup} {farmer : UserRec} {op : Option Operator}
    {st : RegState} {po : Option PlotRec} {st' : RegState}
    (h : stepPlot g farmer op st = .ok (po, st')) :
    storeMono st.store st'.store ∧ (∀ p, po = some p → p ∈ st'.store.plots) := by
  unfold stepPlot at h
  split at h
  · exact createPlot_mono h
  · simp only [Except.ok.injEq, Prod.mk.injEq] at h
    obtain ⟨h1, h2⟩ := h
    subst h2
    subst h1
    exact ⟨storeMono_refl _, by simp⟩

theorem stepFarm_mono {g : RegGroup} {topFarm : Dict} {farmer : UserRec}
    {op : Option Operator} {plotO : Option PlotRec} {st : RegState}
    {fo : Option FarmRec} {st' : RegState}
    (h : stepFarm g topFarm farmer op plotO st = .ok (fo, st')) :
    storeMono st.store st'.store ∧ (∀ f, fo = some f → f ∈ st'.store.farms) := by
  unfold stepFarm at h
  split at h
  · exact createFarm_mono h
  · simp only [Except.ok.injEq, Prod.mk.injEq] at h
    obtain ⟨h1, h2⟩ := h
    subst h2
    subst h1
    exact ⟨storeMono_refl _, by simp⟩

theorem stepIrr_mono {g : RegGroup} {fd : Dict} {op : Option Operator}
    {farmO : Option FarmRec} {st : RegState} {io : Option IrrRec} {st' : RegState}
    (h : stepIrr g fd op farmO st = .ok (io, st')) :
    storeMono st.store st'.store ∧ (∀ i, io = some i → i ∈ st'.store.irrigations) := by
  unfold stepIrr at h
  split at h
  · split at h
    · exact createIrr_mono h
    · simp only [Except.ok.injEq, Prod.mk.injEq] at h
      obtain ⟨h1, h2⟩ := h
      subst h2
      subst h1
      exact ⟨storeMono_refl _, by simp⟩
  · simp only [Except.ok.injEq, Prod.mk.injEq] at h
    obtain ⟨h1, h2⟩ := h
    subst h2
    subst h1
    exact ⟨storeMono_refl _, by simp⟩

theorem stepSync_store (beh : SyncBehavior) (plotO : Option PlotRec)
    (st : RegState) : (stepSync beh plotO st).store = st.store := by
  unfold stepSync
  split
  · rfl
  · rfl

theorem processGroups_mono (beh : SyncBehavior) (topFarm : Dict)
    (farmer : UserRec) (op : Option Operator) :
    ∀ gs acc st ents st',
      processGroups beh topFarm farmer op gs acc st = .ok (ents, st') →
      storeMono st.store st'.store ∧
      ((∀ e, e ∈ acc → goodEnt st.store e) → ∀ e, e ∈ ents → goodEnt st'.store e) := by
  intro gs
  induction gs with
  | nil =>
      intro acc st ents st' h
      simp only [processGroups, Except.ok.injEq, Prod.mk.injEq] at h
      obtain ⟨h1, h2⟩ := h
      subst h2
      subst h1
      exact ⟨storeMono_refl _, fun ha e he => ha e he⟩
  | cons g rest ih =>
      intro acc st ents st' h
      simp only [processGroups] at h
      cases hp : stepPlot g farmer op st with
      | error e => rw [hp] at h; exact Except.noConfusion h
      | ok pr =>
          obtain ⟨plotO, st1⟩ := pr
          rw [hp] at h
          simp only [] at h
          cases hf : stepFarm g topFarm farmer op plotO st1 with
          | error e => rw [hf] at h; exact Except.noConfusion h
          | ok pr2 =>
              obtain ⟨farmO, st2⟩ := pr2
              rw [hf] at h
              simp only [] at h
              cases hi : stepIrr g (groupFd g topFarm plotO) op farmO st2 with
              | error e => rw [hi] at h; exact Except.noConfusion h
              | ok pr3 =>
                  obtain ⟨irrO, st3⟩ := pr3
                  rw [hi] at h
                  simp only [] at h
                  obtain ⟨m1, g1⟩ := stepPlot_mono hp
                  obtain ⟨m2, g2⟩ := stepFarm_mono hf
                  obtain ⟨m3, g3⟩ := stepIrr_mono hi
                  obtain ⟨m4, g4⟩ := ih _ _ _ _ h
                  have hsync : (stepSync beh plotO st3).store = st3.store :=
                    stepSync_store beh plotO st3
                  have m34 : storeMono st3.store st'.store := by
                    rw [← hsync]; exact m4
                  have m13 : storeMono st.store st3.store :=
                    storeMono_trans m1 (storeMono_trans m2 m3)
                  refine ⟨storeMono_trans m13 m34, ?_⟩
                  intro ha e he
                  refine g4 ?_ e he
                  intro e2 he2
                  rw [hsync]
                  rcases List.mem_append.mp he2 with h2a | h2b
                  · exact goodEnt_mono (storeMono_trans m1 (storeMono_trans m2 m3))
                      (ha e2 h2a)
                  · have he3 : e2 = ⟨plotO, farmO, irrO⟩ := by
                      simpa using h2b
                    subst he3
                    refine ⟨fun p hpp => ?_, fun f hff => ?_, fun i hii => ?_⟩
                    · exact m3.2.1 p (m2.2.1 p (g1 p hpp))
                    · exact m3.2.2.1 f (g2 f hff)
                    · exact g3 i hii


theorem register_error_store {beh : SyncBehavior} {d : RegData}
    {op : Option Operator} {s : Store} {e : Err}
    (h : (register beh d op s).2.2 = .error e) : (register beh d op s).1 = s := by
  unfold register at h ⊢
  cases hb : registerBody beh d op ⟨s, []⟩ with
  | error e2 => rfl
  | ok pr => rw [hb] at h; exact Except.noConfusion h

theorem registerBody_ok {beh : SyncBehavior} {d : RegData} {op : Option Operator}
    {st : RegState} {r : RegResult} {st' : RegState}
    (h : registerBody beh d op st = .ok (r, st')) :
    r.farmer ∈ st'.store.users ∧ ∀ e, e ∈ r.created_entities → goodEnt st'.store e := by
  unfold registerBody at h
  cases hf : createFarmer (d.farmer.getD []) op st with
  | error e => rw [hf] at h; exact Except.noConfusion h
  | ok pr =>
      obtain ⟨farmer, st1⟩ := pr
      rw [hf] at h
      simp only [] at h
      cases hpg : processGroups beh (d.farm.getD []) farmer op (normalizeGroups d) [] st1 with
      | error e => rw [hpg] at h; exact Except.noConfusion h
      | ok pr2 =>
          obtain ⟨ents, st2⟩ := pr2
          rw [hpg] at h
          simp only [Except.ok.injEq, Prod.mk.injEq] at h
          obtain ⟨h1, h2⟩ := h
          subst h2
          subst h1
          obtain ⟨mf, uf⟩ := createFarmer_mono hf
          obtain ⟨mg, gg⟩ := processGroups_mono beh (d.farm.getD []) farmer op
            (normalizeGroups d) [] st1 _ _ hpg
          constructor
          · exact mg.1 _ uf
          · intro e he
            exact gg (fun e2 he2 => absurd he2 (List.not_mem_nil e2)) e he

/-- C1 — Atomicity of registration: a registration call either fails with a
validation fault and leaves the store exactly as it was (every write of the
call discarded by the transaction), or returns success with its farmer and
every created plot, farm and irrigation durably present in the resulting
store. -/
theorem c1_registration_atomicity (beh : SyncBehavior) (d : RegData)
    (op : Option Operator) (s : Store) :
    (∀ e, (register beh d op s).2.2 = .error e → (register beh d op s).1 = s)
  ∧ (∀ r, (register beh d op s).2.2 = .ok r →
      r.farmer ∈ (register beh d op s).1.users
      ∧ ∀ ent, ent ∈ r.created_entities →
          (∀ p, ent.plotE = some p → p ∈ (register beh d op s).1.plots)
        ∧ (∀ f, ent.farmE = some f → f ∈ (register beh d op s).1.farms)
        ∧ (∀ i, ent.irrE = some i → i ∈ (register beh d op s).1.irrigations)) := by
  constructor
  · intro e he
    exact register_error_store he
  · intro r hr
    unfold register at hr ⊢
    cases hb : registerBody beh d op ⟨s, []⟩ with
    | error e => rw [hb] at hr; exact Except.noConfusion hr
    | ok pr =>
        obtain ⟨r0, st'⟩ := pr
        rw [hb] at hr
        simp only [Except.ok.injEq] at hr
        subst hr
        have hok := registerBody_ok hb
        exact ⟨hok.1, fun ent he => hok.2 ent he⟩

/-- Witness for C1: in the concrete request whose farm block lacks the
required address, the fault fires after the plot write, and the call leaves
the store exactly as before — zero plots and farms from the call. -/
theorem c1_registration_atomicity_w :
    (register behT dFaultyFarm (some opA) store0).1 = store0
  ∧ (register behT dFaultyFarm (some opA) store0).2.2
      = .error "Registration failed: Farm address is required"
  ∧ store0.plots = [] ∧ store0.farms = [] := by
  refine ⟨?_, by decide, rfl, rfl⟩
  exact (c1_registration_atomicity behT dFaultyFarm (some opA) store0).1
    "Registration failed: Farm address is required" (by decide)


theorem createFarmer_nc {fd : Dict} {op : Option Operator} {st : RegState}
    {u : UserRec} {st' : RegState}
    (h : createFarmer fd op st = .ok (u, st'))
    (hnc : Event.commit ∉ st.trace) : Event.commit ∉ st'.trace := by
  unfold createFarmer at h
  try simp only [] at h
  repeat' split at h
  all_goals
    first
      | (exact Except.noConfusion h)
      | (simp only [Except.ok.injEq, Prod.mk.injEq] at h
         obtain ⟨h1, h2⟩ := h
         subst h2
         simp [List.mem_append, hnc])

theorem createPlot_nc {pd : Dict} {farmer : UserRec} {op : Option Operator}
    {st : RegState} {po : Option PlotRec} {st' : RegState}
    (h : createPlot pd farmer op st = .ok (po, st'))
    (hnc : Event.commit ∉ st.trace) : Event.commit ∉ st'.trace := by
  unfold createPlot at h
  try simp only [] at h
  repeat' split at h
  all_goals
    first
      | (exact Except.noConfusion h)
      | (simp only [Except.ok.injEq, Prod.mk.injEq] at h
         obtain ⟨h1, h2⟩ := h
         subst h2
         simp [List.mem_append, hnc])

theorem createFarm_nc {fd : Dict} {farmer : UserRec} {op : Option Operator}
    {plot : Option PlotRec} {st : RegState} {fo : Option FarmRec} {st' : RegState}
    (h : createFarm fd farmer op plot st = .ok (fo, st'))
    (hnc : Event.commit ∉ st.trace) : Event.commit ∉ st'.trace := by
  unfold createFarm at h
  split at h
  · simp only [Except.ok.injEq, Prod.mk.injEq] at h
    obtain ⟨h1, h2⟩ := h
    subst h2
    exact hnc
  · split at h
    · exact Except.noConfusion h
    · split at h
      · exact Except.noConfusion h
      · cases hs : resolveSoil fd st.store with
        | error e => rw [hs] at h; exact Except.noConfusion h
        | ok pr =>
            obtain ⟨soil, s1⟩ := pr
            rw [hs] at h
            simp only [] at h
            cases hc : resolveCrop fd op s1 with
            | error e => rw [hc] at h; exact Except.noConfusion h
            | ok pr2 =>
                obtain ⟨crop, s2⟩ := pr2
                rw [hc] at h
                simp only [Except.ok.injEq, Prod.mk.injEq] at h
                obtain ⟨h1, h2⟩ := h
                subst h2
                simp [List.mem_append, hnc]

theorem createIrr_nc {idta : Dict} {farm : FarmRec} {op : Option Operator}
    {fd : Dict} {st : RegState} {io : Option IrrRec} {st' : RegState}
    (h : createFarmIrrigation idta farm op fd st = .ok (io, st'))
    (hnc : Event.commit ∉ st.trace) : Event.commit ∉ st'.trace := by
  unfold createFarmIrrigation at h
  split at h
  · simp only [Except.ok.injEq, Prod.mk.injEq] at h
    obtain ⟨h1, h2⟩ := h
    subst h2
    exact hnc
  · cases hit : resolveIT idta st.store with
    | error e => rw [hit] at h; exact Except.noConfusion h
    | ok pr =>
        obtain ⟨it, s1⟩ := pr
        rw [hit] at h
        simp only [] at h
        repeat' split at h
        all_goals
          first
            | (exact Except.noConfusion h)
            | (simp only [Except.ok.injEq, Prod.mk.injEq] at h
               obtain ⟨h1, h2⟩ := h
               subst h2
               simp [List.mem_append, hnc])

theorem syncFold_nc (beh : SyncBehavior) (pid : Nat) :
    ∀ ns acc tr, Event.commit ∉ tr →
      Event.commit ∉ (syncFold beh pid ns acc tr).2 := by
  intro ns
  induction ns with
  | nil => intro acc tr hnc; exact hnc
  | cons n rest ih =>
      intro acc tr hnc
      simp only [syncFold]
      exact ih _ _ (by simp [List.mem_append, hnc])

theorem stepSync_nc {beh : SyncBehavior} {plotO : Option PlotRec} {st : RegState}
    (hnc : Event.commit ∉ st.trace) :
    Event.commit ∉ (stepSync beh plotO st).trace := by
  unfold stepSync
  split
  · exact syncFold_nc _ _ _ _ _ hnc
  · exact hnc

theorem stepPlot_nc {g : RegGroup} {farmer : UserRec} {op : Option Operator}
    {st : RegState} {po : Option PlotRec} {st' : RegState}
    (h : stepPlot g farmer op st = .ok (po, st'))
    (hnc : Event.commit ∉ st.trace) : Event.commit ∉ st'.trace := by
  unfold stepPlot at h
  split at h
  · exact createPlot_nc h hnc
  · simp only [Except.ok.injEq, Prod.mk.injEq] at h
    obtain ⟨h1, h2⟩ := h
    subst h2
    exact hnc

theorem stepFarm_nc {g : RegGroup} {topFarm : Dict} {farmer : UserRec}
    {op : Option Operator} {plotO : Option PlotRec} {st : RegState}
    {fo : Option FarmRec} {st' : RegState}
    (h : stepFarm g topFarm farmer op plotO st = .ok (fo, st'))
    (hnc : Event.commit ∉ st.trace) : Event.commit ∉ st'.trace := by
  unfold stepFarm at h
  split at h
  · exact createFarm_nc h hnc
  · simp only [Except.ok.injEq, Prod.mk.injEq] at h
    obtain ⟨h1, h2⟩ := h
    subst h2
    exact hnc

theorem stepIrr_nc {g : RegGroup} {fd : Dict} {op : Option Operator}
    {farmO : Option FarmRec} {st : RegState} {io : Option IrrRec} {st' : RegState}
    (h : stepIrr g fd op farmO st = .ok (io, st'))
    (hnc : Event.commit ∉ st.trace) : Event.commit ∉ st'.trace := by
  unfold stepIrr at h
  split at h
  · split at h
    · exact createIrr_nc h hnc
    · simp only [Except.ok.injEq, Prod.mk.injEq] at h
      obtain ⟨h1, h2⟩ := h
      subst h2
      exact hnc
  · simp only [Except.ok.injEq, Prod.mk.injEq] at h
    obtain ⟨h1, h2⟩ := h
    subst h2
    exact hnc

theorem processGroups_nc (beh : SyncBehavior) (topFarm : Dict)
    (farmer : UserRec) (op : Option Operator) :
    ∀ gs acc st ents st',
      processGroups beh topFarm farmer op gs acc st = .ok (ents, st') →
      Event.commit ∉ st.trace → Event.commit ∉ st'.trace := by
  intro gs
  induction gs with
  | nil =>
      intro acc st ents st' h hnc
      simp only [processGroups, Except.ok.injEq, Prod.mk.injEq] at h
      obtain ⟨h1, h2⟩ := h
      subst h2
      exact hnc
  | cons g rest ih =>
      intro acc st ents st' h hnc
      simp only [processGroups] at h
      cases hp : stepPlot g farmer op st with
      | error e => rw [hp] at h; exact Except.noConfusion h
      | ok pr =>
          obtain ⟨plotO, st1⟩ := pr
          rw [hp] at h
          simp only [] at h
          cases hf : stepFarm g topFarm farmer op plotO st1 with
          | error e => rw [hf] at h; exact Except.noConfusion h
          | ok pr2 =>
              obtain ⟨farmO, st2⟩ := pr2
              rw [hf] at h
              simp only [] at h
              cases hi : stepIrr g (groupFd g topFarm plotO) op farmO st2 with
              | error e => rw [hi] at h; exact Except.noConfusion h
              | ok pr3 =>
                  obtain ⟨irrO, st3⟩ := pr3
                  rw [hi] at h
                  simp only [] at h
                  exact ih _ _ _ _ h
                    (stepSync_nc (stepIrr_nc hi (stepFarm_nc hf (stepPlot_nc hp hnc))))

theorem registerBody_nc {beh : SyncBehavior} {d : RegData} {op : Option Operator}
    {st : RegState} {r : RegResult} {st' : RegState}
    (h : registerBody beh d op st = .ok (r, st'))
    (hnc : Event.commit ∉ st.trace) : Event.commit ∉ st'.trace := by
  unfold registerBody at h
  cases hf : createFarmer (d.farmer.getD []) op st with
  | error e => rw [hf] at h; exact Except.noConfusion h
  | ok pr =>
      obtain ⟨farmer, st1⟩ := pr
      rw [hf] at h
      simp only [] at h
      cases hpg : processGroups beh (d.farm.getD []) farmer op (normalizeGroups d) [] st1 with
      | error e => rw [hpg] at h; exact Except.noConfusion h
      | ok pr2 =>
          obtain ⟨ents, st2⟩ := pr2
          rw [hpg] at h
          simp only [Except.ok.injEq, Prod.mk.injEq] at h
          obtain ⟨h1, h2⟩ := h
          subst h2
          exact processGroups_nc beh (d.farm.getD []) farmer op
            (normalizeGroups d) [] st1 _ _ hpg (createFarmer_nc hf hnc)

/-- C2 (amended) — Commit ordering of the sync fan-out: the dispatches
happen inside the transaction.  On a successful call the durability point
(`commit`) is the unique last event of the trace — every entity write and
every sync dispatch strictly precedes it — and on a failed call no commit
happens at all. -/
theorem c2_sync_inside_transaction (beh : SyncBehavior) (d : RegData)
    (op : Option Operator) (s : Store) :
    (∀ e, (register beh d op s).2.2 = .error e →
        Event.commit ∉ (register beh d op s).2.1)
  ∧ (∀ r, (register beh d op s).2.2 = .ok r →
        (register beh d op s).2.1.getLast? = some Event.commit
      ∧ Event.commit ∉ (register beh d op s).2.1.dropLast) := by
  unfold register
  cases hb : registerBody beh d op ⟨s, []⟩ with
  | error e =>
      constructor
      · intro e2 he
        simp
      · intro r hr
        exact Except.noConfusion hr
  | ok pr =>
      obtain ⟨r0, st'⟩ := pr
      constructor
      · intro e2 he
        exact Except.noConfusion he
      · intro r hr
        have hnc : Event.commit ∉ st'.trace :=
          registerBody_nc hb (by simp)
        constructor
        · exact List.getLast?_concat _
        · rw [List.dropLast_concat]
          exact hnc


/-- Counterexample to C2 as stated: in a successful two-plot registration,
a sync dispatch occurs strictly before the transaction commit event and
even before the second plot is written — so the fan-out is not performed
only after the durability point. -/
theorem c2_sync_postcommit_cex :
    isErr (register behT dTwoPlots (some opA) store0).2.2 = false
  ∧ (((register behT dTwoPlots (some opA) store0).2.1.takeWhile
        (fun e => !(e == Event.commit))).any isSyncEvt) = true
  ∧ (((register behT dTwoPlots (some opA) store0).2.1.takeWhile
        (fun e => !(e == Event.wPlot 2))).any isSyncEvt) = true := by
  refine ⟨by decide, by decide, by decide⟩

/-- Witness for the amended C2 at a concrete successful two-plot
registration: the commit event closes the trace and never occurs earlier. -/
theorem c2_sync_inside_transaction_w :
    (register behT dTwoPlots (some opA) store0).2.1.getLast? = some Event.commit
  ∧ Event.commit ∉ (register behT dTwoPlots (some opA) store0).2.1.dropLast := by
  obtain ⟨r, hr⟩ : ∃ r, (register behT dTwoPlots (some opA) store0).2.2 = .ok r := by
    cases hres : (register behT dTwoPlots (some opA) store0).2.2 with
    | ok r => exact ⟨r, rfl⟩
    | error e =>
        exfalso
        have hd : isErr (register behT dTwoPlots (some opA) store0).2.2 = false := by
          decide
        rw [hres] at hd
        simp [isErr] at hd
  exact (c2_sync_inside_transaction behT dTwoPlots (some opA) store0).2 r hr


theorem textCascadePT_eq (f : Bool) (ind : Option Nat) (c : String) (s : Store) :
    textCascadePT f ind c s =
      (match cascadeLookupPT s ind c with
       | some r => (some r, s)
       | none =>
           if f then (none, s)
           else
             (some ⟨s.nextId, ind, c, pyTitle (underscoreToSpace c),
                "Auto-created plantation type: " ++ pyTitle (underscoreToSpace c), true⟩,
              { s with
                plantationTypes := s.plantationTypes ++
                  [⟨s.nextId, ind, c, pyTitle (underscoreToSpace c),
                    "Auto-created plantation type: " ++ pyTitle (underscoreToSpace c), true⟩],
                nextId := s.nextId + 1 })) := by
  unfold textCascadePT cascadeLookupPT
  cases h1 : (s.plantationTypes.filter (fun r => r.code == c && r.industry == ind)).head? with
  | some r1 => simp [h1, Option.orElse]
  | none =>
      cases h2 : (s.plantationTypes.filter (fun r => r.name == c && r.industry == ind)).head? with
      | some r2 => simp [h1, h2, Option.orElse]
      | none =>
          cases h3 : (s.plantationTypes.filter (fun r => r.code == c)).head? with
          | some r3 => simp [h1, h2, h3, Option.orElse]
          | none =>
              cases h4 : (s.plantationTypes.filter (fun r => r.name == c)).head? with
              | some r4 => simp [h1, h2, h3, h4, Option.orElse]
              | none =>
                  have h5 : (s.plantationTypes.filter
                      (fun r => r.industry == ind && r.code == c)).head? = none := by
                    rw [List.head?_eq_none_iff] at h3 ⊢
                    rw [List.filter_eq_nil_iff] at h3 ⊢
                    intro a ha hcond
                    exact h3 a ha ((Bool.and_eq_true _ _).mp hcond).2
                  simp [h1, h2, h3, h4, h5, Option.orElse]

theorem textCascadePM_eq (f : Bool) (ind pt : Option Nat) (c : String) (s : Store) :
    textCascadePM f ind pt c s =
      (match cascadeLookupPM s pt c with
       | some r => (some r, s)
       | none =>
           if f then (none, s)
           else
             (some ⟨s.nextId, pt, ind, c, pyTitle (underscoreToSpace c),
                "Auto-created planting method: " ++ pyTitle (underscoreToSpace c), true⟩,
              { s with
                plantingMethods := s.plantingMethods ++
                  [⟨s.nextId, pt, ind, c, pyTitle (underscoreToSpace c),
                    "Auto-created planting method: " ++ pyTitle (underscoreToSpace c), true⟩],
                nextId := s.nextId + 1 })) := by
  unfold textCascadePM cascadeLookupPM
  have hsc : (match pt with
      | some _ =>
          ((s.plantingMethods.filter (fun r => r.code == c && r.plantation_type == pt)).head?).orElse
            (fun _ => (s.plantingMethods.filter (fun r => r.name == c && r.plantation_type == pt)).head?)
      | none => none) = scopedPM pt c s := by
    unfold scopedPM
    cases pt with
    | none => rfl
    | some n =>
        cases hh : (s.plantingMethods.filter
            (fun r => r.code == c && r.plantation_type == some n)).head? with
        | some r => simp [hh, Option.orElse]
        | none => simp [hh, Option.orElse]
  rw [hsc]
  cases hs : scopedPM pt c s with
  | some r => simp [hs, Option.orElse]
  | none =>
      cases h3 : (s.plantingMethods.filter (fun r => r.code == c)).head? with
      | some r3 => simp [h3, Option.orElse]
      | none =>
          cases h4 : (s.plantingMethods.filter (fun r => r.name == c)).head? with
          | some r4 => simp [h3, h4, Option.orElse]
          | none =>
              have h5 : (s.plantingMethods.filter
                  (fun r => r.plantation_type == pt && r.industry == ind && r.code == c)).head?
                    = none := by
                rw [List.head?_eq_none_iff] at h3 ⊢
                rw [List.filter_eq_nil_iff] at h3 ⊢
                intro a ha hcond
                exact h3 a ha ((Bool.and_eq_true _ _).mp hcond).2
              simp [h3, h4, h5, Option.orElse]


/-- C3 (amended) — free-text resolution cascades: PlantationType resolution
follows the claimed order (code within the industry, name within the
industry, code ignoring industry, name ignoring industry, then auto-create
scoped to the industry with the title-cased name); PlantingMethod
resolution is scoped by the resolved plantation type instead of the
industry (code within the plantation type, name within it — only when one
resolved — then code and name unscoped, then auto-create scoped to
plantation type, industry and code); an id-based lookup of a nonexistent id
is a hard fault; the free-text path never raises, and an injected
store fault during it yields no match. -/
theorem c3_resolution_cascade :
    (∀ f ind c s, textCascadePT f ind c s =
      (match cascadeLookupPT s ind c with
       | some r => (some r, s)
       | none =>
           if f then (none, s)
           else
             (some ⟨s.nextId, ind, c, pyTitle (underscoreToSpace c),
                "Auto-created plantation type: " ++ pyTitle (underscoreToSpace c), true⟩,
              { s with
                plantationTypes := s.plantationTypes ++
                  [⟨s.nextId, ind, c, pyTitle (underscoreToSpace c),
                    "Auto-created plantation type: " ++ pyTitle (underscoreToSpace c), true⟩],
                nextId := s.nextId + 1 })))
  ∧ (∀ f ind pt c s, textCascadePM f ind pt c s =
      (match cascadeLookupPM s pt c with
       | some r => (some r, s)
       | none =>
           if f then (none, s)
           else
             (some ⟨s.nextId, pt, ind, c, pyTitle (underscoreToSpace c),
                "Auto-created planting method: " ++ pyTitle (underscoreToSpace c), true⟩,
              { s with
                plantingMethods := s.plantingMethods ++
                  [⟨s.nextId, pt, ind, c, pyTitle (underscoreToSpace c),
                    "Auto-created planting method: " ++ pyTitle (underscoreToSpace c), true⟩],
                nextId := s.nextId + 1 })))
  ∧ (∀ fd ind s n, truthyO (dget fd "plantation_type_id") = true →
      asId (dgetD fd "plantation_type_id" .vNone) = some n →
      s.plantationTypes.find? (fun r => r.id == n) = none →
      resolvePT fd ind s = .error ("Plantation type ID " ++ toString n ++ " not found"))
  ∧ (∀ fd ind pt s n, truthyO (dget fd "planting_method_id") = true →
      asId (dgetD fd "planting_method_id" .vNone) = some n →
      s.plantingMethods.find? (fun r => r.id == n) = none →
      resolvePM fd ind pt s = .error ("Planting method ID " ++ toString n ++ " not found"))
  ∧ (∀ fd ind s, truthyO (dget fd "plantation_type_id") = false →
      isErr (resolvePT fd ind s) = false)
  ∧ (∀ fd ind pt s, truthyO (dget fd "planting_method_id") = false →
      isErr (resolvePM fd ind pt s) = false) := by
  refine ⟨textCascadePT_eq, textCascadePM_eq, ?_, ?_, ?_, ?_⟩
  · intro fd ind s n h1 h2 h3
    unfold resolvePT
    simp [h1, h2, h3]
  · intro fd ind pt s n h1 h2 h3
    unfold resolvePM
    simp [h1, h2, h3]
  · intro fd ind s h1
    unfold resolvePT
    simp only [h1]
    repeat' split
    all_goals simp_all [isErr]
  · intro fd ind pt s h1
    unfold resolvePM
    simp only [h1]
    repeat' split
    all_goals simp_all [isErr]

/-- Counterexample to C3 as stated for PlantingMethod: the store holds a
planting method whose code matches within the operator industry (`pmX1`),
yet resolution returns the cross-industry method that matches within the
resolved plantation type (`pmX2`) — the first cascade stage is
plantation-type-scoped, not industry-scoped. -/
theorem c3_pm_scope_cex :
    (textCascadePM false (some 1) (some 60) "x" sPMcex).1 = some pmX2
  ∧ pmX1 ∈ sPMcex.plantingMethods
  ∧ pmX1.code = "x" ∧ pmX1.industry = some 1
  ∧ pmX2.industry = some 2 := by
  refine ⟨by decide, by decide, rfl, rfl, rfl⟩

/-- Witness for C3 at concrete inputs: a cross-industry code match for
PlantationType is found before auto-creating, the auto-create path produces
the title-cased name, and a missing plantation-type id is a hard fault
while the free-text path is not. -/
theorem c3_resolution_cascade_w :
    textCascadePT false (some 1) "drip_basin"
      { store0 with plantationTypes := [⟨0, some 9, "drip_basin", "DB", "", true⟩], nextId := 1 }
      = (some ⟨0, some 9, "drip_basin", "DB", "", true⟩,
         { store0 with plantationTypes := [⟨0, some 9, "drip_basin", "DB", "", true⟩], nextId := 1 })
  ∧ (textCascadePT false (some 1) "drip_basin" store0).1
      = some ⟨0, some 1, "drip_basin", "Drip Basin",
          "Auto-created plantation type: Drip Basin", true⟩
  ∧ resolvePT [("plantation_type_id", .vInt 7)] none store0
      = .error "Plantation type ID 7 not found"
  ∧ isErr (resolvePT [("plantation_type", .vStr "drip_basin")] none store0) = false := by
  refine ⟨?_, ?_, ?_, ?_⟩
  · have h := (c3_resolution_cascade.1) false (some 1) "drip_basin"
      { store0 with plantationTypes := [⟨0, some 9, "drip_basin", "DB", "", true⟩], nextId := 1 }
    rw [h]
    decide
  · have h := (c3_resolution_cascade.1) false (some 1) "drip_basin" store0
    rw [h]
    decide
  · exact (c3_resolution_cascade.2.2.1) [("plantation_type_id", .vInt 7)] none store0 7
      (by decide) (by decide) (by decide)
  · exact (c3_resolution_cascade.2.2.2.2.1) [("plantation_type", .vStr "drip_basin")]
      none store0 (by decide)


/-- C4 — evidence of the crop-type backfill bug: with a CropType named
Wheat and no plantation data already stored, resolving Wheat with resolved
plantation data searches by the exact triple, misses, and creates a second
Wheat row, leaving the original untouched — the in-place update branch can
never fire because the search matches the exact triple, so the documented
backfill never happens. -/
theorem c4_croptype_backfill_bug :
    cropTriple (.vStr "Wheat") (some 7) none sWheat
      = (⟨1, .vStr "Wheat", some 7, none⟩,
         { sWheat with
           cropTypes := [⟨0, .vStr "Wheat", none, none⟩,
             ⟨1, .vStr "Wheat", some 7, none⟩],
           nextId := 2 })
  ∧ (cropTriple (.vStr "Wheat") (some 7) none sWheat).2.cropTypes.length = 2
  ∧ (⟨0, .vStr "Wheat", none, none⟩ : CropTypeRec)
      ∈ (cropTriple (.vStr "Wheat") (some 7) none sWheat).2.cropTypes := by
  refine ⟨by decide, by decide, by decide⟩

/-- C6 — Phone normalization: a truthy phone string is stripped of
non-digits; a 12-digit result with the 91 country prefix loses the prefix
(`stripCC`); the remainder must be exactly 10 digits or farmer creation
fails; falsy/blank phone input is stored as no phone; the farmer row stores
exactly the normalized value; the claim's concrete examples hold. -/
theorem c6_phone_normalization :
    (∀ s', pyStrip s' ≠ "" →
       ((stripCC ((pyStrip s').data.filter Char.isDigit)).length = 10 →
          normalizePhone (some (.vStr s'))
            = .ok (some (String.mk (stripCC ((pyStrip s').data.filter Char.isDigit)))))
     ∧ ((stripCC ((pyStrip s').data.filter Char.isDigit)).length ≠ 10 →
          isErr (normalizePhone (some (.vStr s'))) = true))
  ∧ (∀ rest : List Char, ('9' :: '1' :: rest).length = 12 →
       stripCC ('9' :: '1' :: rest) = rest)
  ∧ (∀ ds : List Char, (∀ rest, ds ≠ '9' :: '1' :: rest) → stripCC ds = ds)
  ∧ (∀ s', pyStrip s' = "" → normalizePhone (some (.vStr s')) = .ok none)
  ∧ normalizePhone none = .ok none
  ∧ (∀ fd op st u st', createFarmer fd op st = .ok (u, st') →
       (match normalizePhone (dget fd "phone_number") with
        | .ok ph => u.phone = ph
        | .error _ => False))
  ∧ normalizePhone (some (.vStr "+91 98765 43210")) = .ok (some "9876543210")
  ∧ isErr (normalizePhone (some (.vStr "987654321"))) = true := by
  refine ⟨?_, ?_, ?_, ?_, by decide, ?_, by decide, by decide⟩
  · intro s' hns
    have hne : s' ≠ "" := by
      intro he
      subst he
      exact hns rfl
    constructor
    · intro hlen
      simp [normalizePhone, hne, hns, hlen]
    · intro hlen
      simp [normalizePhone, hne, hns, hlen, isErr]
  · intro rest hlen
    unfold stripCC
    simp [hlen]
  · intro ds hne
    unfold stripCC
    split
    · next rest => exact absurd rfl (hne rest)
    · rfl
  · intro s' he
    by_cases hne : s' = ""
    · subst hne
      simp [normalizePhone]
    · simp [normalizePhone, hne, he]
  · intro fd op st u st' h
    unfold createFarmer at h
    try simp only [] at h
    repeat' split at h
    all_goals
      first
        | (exact Except.noConfusion h)
        | (simp only [Except.ok.injEq, Prod.mk.injEq] at h
           obtain ⟨h1, h2⟩ := h
           subst h2
           subst h1
           simp_all)

/-- Witness for C6 at concrete inputs: a 12-digit 91-prefixed number loses
the prefix, and an 11-digit cleanup fails. -/
theorem c6_phone_normalization_w :
    normalizePhone (some (.vStr "+919812345678")) = .ok (some "9812345678")
  ∧ isErr (normalizePhone (some (.vStr "+91 12345 67890 1"))) = true := by
  constructor
  · exact ((c6_phone_normalization.1 "+919812345678" (by decide)).1 (by decide)).trans
      (by decide)
  · exact (c6_phone_normalization.1 "+91 12345 67890 1" (by decide)).2 (by decide)

theorem computePPA_drip {it : ITRec} {ppaIn : Option Val} {fd : Dict}
    {a b : Rat} (h1 : strLower it.name = "drip") (h2 : truthyO ppaIn = false)
    (h3 : dictFalsy fd = false) (h4 : truthyO (dget fd "spacing_a") = true)
    (h5 : truthyO (dget fd "spacing_b") = true)
    (hfa : pyFloat (dgetD fd "spacing_a" .vNone) = some a)
    (hfb : pyFloat (dgetD fd "spacing_b" .vNone) = some b)
    (hpa : 0 < a) (hpb : 0 < b) :
    computePPA (some it) ppaIn fd = some (.vRat (43560 / (a * b))) := by
  simp [computePPA, h1, h2, h3, h4, h5, hfa, hfb, hpa, hpb]

/-- C7 (amended) — plants_per_acre derivation: the derived value is
computed exactly when the supplied plants_per_acre is absent or falsy (an
explicitly supplied zero is treated as unsupplied), the resolved irrigation
type's name lower-cases to drip, the merged farm data has truthy spacing
entries, and both parse as positive numbers; it then equals
43560 / (spacing_a * spacing_b); a truthy supplied value, a missing or
non-drip type, a parse failure or a non-positive spacing leaves the
supplied value untouched, and nothing is raised (the zero-spacing
irrigation run succeeds with no derived value). -/
theorem c7_plants_per_acre :
    (∀ it ppaIn fd a b, strLower it.name = "drip" → truthyO ppaIn = false →
       dictFalsy fd = false → truthyO (dget fd "spacing_a") = true →
       truthyO (dget fd "spacing_b") = true →
       pyFloat (dgetD fd "spacing_a" .vNone) = some a →
       pyFloat (dgetD fd "spacing_b" .vNone) = some b →
       0 < a → 0 < b →
       computePPA (some it) ppaIn fd = some (.vRat (43560 / (a * b))))
  ∧ (∀ it ppaIn fd, truthyO ppaIn = true → computePPA it ppaIn fd = ppaIn)
  ∧ (∀ it ppaIn fd, strLower it.name ≠ "drip" → computePPA (some it) ppaIn fd = ppaIn)
  ∧ (∀ ppaIn fd, computePPA none ppaIn fd = ppaIn)
  ∧ (∀ it ppaIn fd, pyFloat (dgetD fd "spacing_a" .vNone) = none →
       computePPA it ppaIn fd = ppaIn)
  ∧ (∀ it ppaIn fd a b, pyFloat (dgetD fd "spacing_a" .vNone) = some a →
       pyFloat (dgetD fd "spacing_b" .vNone) = some b → ¬(0 < a ∧ 0 < b) →
       computePPA it ppaIn fd = ppaIn)
  ∧ computePPA (some itDrip) none fdSpacing = some (.vRat (43560 / 100))
  ∧ (createFarmIrrigation idtaDrip farmC7 none fdSpacing0 ⟨store0, []⟩).map
      (fun p => p.1.map (fun r => r.plants_per_acre)) = .ok (some none) := by
  refine ⟨fun it ppaIn fd a b h1 h2 h3 h4 h5 hfa hfb hpa hpb =>
    computePPA_drip h1 h2 h3 h4 h5 hfa hfb hpa hpb, ?_, ?_, ?_, ?_, ?_, ?_, by decide⟩
  · intro it ppaIn fd h
    cases it with
    | none => rfl
    | some rec' => simp [computePPA, h]
  · intro it ppaIn fd h
    simp [computePPA, h]
  · intro ppaIn fd
    rfl
  · intro it ppaIn fd h
    cases it with
    | none => rfl
    | some rec' =>
        simp only [computePPA, h]
        repeat' split
        all_goals simp_all
  · intro it ppaIn fd a b hfa hfb hnp
    cases it with
    | none => rfl
    | some rec' =>
        simp only [computePPA, hfa, hfb]
        repeat' split
        all_goals simp_all
  · have heq : (43560 / ((10 : Rat) * 10)) = 43560 / 100 := by norm_num
    have h := @computePPA_drip itDrip none fdSpacing 10 10 (by decide) (by decide)
      (by decide) (by decide) (by decide) (by decide) (by decide) (by norm_num)
      (by norm_num)
    rw [heq] at h
    exact h

/-- Counterexample to C7 as stated: an explicitly supplied zero
plants_per_acre still triggers the derivation — the code checks truthiness,
not presence, of the supplied value. -/
theorem c7_ppa_explicit_zero_cex :
    (some (Val.vInt 0)).isSome = true
  ∧ computePPA (some itDrip) (some (.vInt 0)) fdSpacing = some (.vRat (43560 / 100))
  ∧ (∀ q : Rat, Val.vRat q ≠ Val.vInt 0) := by
  refine ⟨rfl, ?_, fun q => by simp⟩
  have heq : (43560 / ((10 : Rat) * 10)) = 43560 / 100 := by norm_num
  have h := @computePPA_drip itDrip (some (.vInt 0)) fdSpacing 10 10 (by decide)
    (by decide) (by decide) (by decide) (by decide) (by decide) (by decide)
    (by norm_num) (by norm_num)
  rw [heq] at h
  exact h

/-- Witness for C7: the derivation conjunct applied at the concrete drip
irrigation with 10 by 10 spacing gives 43560/100 = 435.6 plants per acre. -/
theorem c7_plants_per_acre_w :
    computePPA (some itDrip) none fdSpacing = some (.vRat (43560 / (10 * 10))) := by
  exact c7_plants_per_acre.1 itDrip none fdSpacing 10 10 (by decide) (by decide)
    (by decide) (by decide) (by decide) (by decide) (by decide) (by norm_num)
    (by norm_num)


theorem syncFold_spec (beh : SyncBehavior) (pid : Nat) :
    ∀ ns acc tr, syncFold beh pid ns acc tr =
      (⟨acc.successful ++ ns.filter (fun n => beh pid n == .ret true),
        acc.failed ++ ns.filterMap (fun n =>
          match beh pid n with
          | .ret true => none
          | .ret false => some (n ++ " (returned False)")
          | .raise m => some (n ++ " (" ++ m ++ ")"))⟩,
       tr ++ ns.map (fun n => Event.sync pid n)) := by
  intro ns
  induction ns with
  | nil => intro acc tr; simp [syncFold]
  | cons n rest ih =>
      intro acc tr
      simp only [syncFold]
      rw [ih]
      cases hb : beh pid n with
      | ret b =>
          cases b
          · simp [syncStep, hb, List.filter_cons, List.filterMap_cons]
          · simp [syncStep, hb, List.filter_cons, List.filterMap_cons]
      | raise m => simp [syncStep, hb, List.filter_cons, List.filterMap_cons]

/-- C8 — Sync fan-out independence and containment: for every plot and
every behaviour of the five fixed targets, all targets are dispatched in
order (the trace gains one sync event per target and the store is never
touched), the report's successes are exactly the targets that returned a
truthy result, its failures carry the target name with "returned False" or
the raised fault's description, and with target three raising the report
holds four successes and the one named failure.  The fan-out is a total
function — it never raises to its caller. -/
theorem c8_sync_fanout :
    (∀ beh pid (st : RegState),
       (syncPlot beh pid st).1.successful
         = syncServices.filter (fun n => beh pid n == .ret true)
     ∧ (syncPlot beh pid st).1.failed
         = syncServices.filterMap (fun n =>
             match beh pid n with
             | .ret true => none
             | .ret false => some (n ++ " (returned False)")
             | .raise m => some (n ++ " (" ++ m ++ ")"))
     ∧ (syncPlot beh pid st).2.store = st.store
     ∧ (syncPlot beh pid st).2.trace
         = st.trace ++ syncServices.map (fun n => Event.sync pid n))
  ∧ (syncPlot behBoom 5 ⟨store0, []⟩).1
      = ⟨["events.py", "soil.py/main.py", "ET.py", "field.py"], ["Admin.py (boom)"]⟩ := by
  constructor
  · intro beh pid st
    have h := syncFold_spec beh pid syncServices ⟨[], []⟩ st.trace
    refine ⟨?_, ?_, rfl, ?_⟩
    · show (syncFold beh pid syncServices ⟨[], []⟩ st.trace).1.successful = _
      rw [h]
      simp
    · show (syncFold beh pid syncServices ⟨[], []⟩ st.trace).1.failed = _
      rw [h]
      simp
    · show (syncFold beh pid syncServices ⟨[], []⟩ st.trace).2 = _
      rw [h]
  · decide

/-- C9 — Duplicate-plot rejection: when the store already holds a plot with
the same (gat_number, plot_number, village, district) natural key — an
absent plot_number read as the empty string — plot creation fails with the
duplicate-plot message naming the GAT and village, and any failed
registration call leaves the store untouched. -/
theorem c9_duplicate_plot :
    (∀ pd farmer op st,
       dictFalsy pd = false →
       plotRequired.find? (fun k => !truthyO (dget pd k)) = none →
       st.store.plots.any (dupPlot pd) = true →
       createPlot pd farmer op st
         = .error ("Plot GAT " ++ pyStr (dgetD pd "gat_number" .vNone) ++ " in "
             ++ pyStr (dgetD pd "village" .vNone) ++ " already exists"))
  ∧ (∀ beh d op s e, (register beh d op s).2.2 = .error e →
       (register beh d op s).1 = s) := by
  constructor
  · intro pd farmer op st h1 h2 h3
    unfold createPlot
    simp [h1, h2, h3]
  · intro beh d op s e he
    exact register_error_store he


/-- Witness for C9: after a first registration of GAT 123 in village X, a
second registration by a different farmer with the identical natural key
fails with the duplicate-plot fault and writes nothing, and `createPlot`
itself reports the duplicate. -/
theorem c9_duplicate_plot_w :
    (register behT dOnePlotDup (some opA)
        (register behT dOnePlot (some opA) store0).1).2.2
      = .error "Registration failed: Plot GAT 123 in X already exists"
  ∧ (register behT dOnePlotDup (some opA)
        (register behT dOnePlot (some opA) store0).1).1
      = (register behT dOnePlot (some opA) store0).1
  ∧ createPlot plotD
      ⟨99, .vStr "u", .vStr "e", .vStr "f", .vStr "l", none, .vStr "", .vStr "",
        .vStr "", .vStr "", .vStr "", "farmer", none, none⟩
      (some opA) ⟨(register behT dOnePlot (some opA) store0).1, []⟩
      = .error "Plot GAT 123 in X already exists" := by
  refine ⟨by decide, ?_, ?_⟩
  · exact c9_duplicate_plot.2 behT dOnePlotDup (some opA) _
      "Registration failed: Plot GAT 123 in X already exists" (by decide)
  · exact (c9_duplicate_plot.1 plotD
      ⟨99, .vStr "u", .vStr "e", .vStr "f", .vStr "l", none, .vStr "", .vStr "",
        .vStr "", .vStr "", .vStr "", "farmer", none, none⟩
      (some opA) ⟨(register behT dOnePlot (some opA) store0).1, []⟩
      (by decide) (by decide) (by decide)).trans (by decide)


theorem processGroups_nil (beh : SyncBehavior) (topFarm : Dict)
    (farmer : UserRec) (op : Option Operator) (acc : List CreatedEnt)
    (st : RegState) :
    processGroups beh topFarm farmer op [] acc st = .ok (acc, st) := rfl

/-- C10 — legacy-shape recognition depends only on the `plot` key: with no
`plot` key and no non-empty `plots` list, the top-level farm and irrigation
blocks are inert (the call behaves as if they were absent) and a
successful call creates no entities; with a non-empty `plots` list the
legacy top-level `plot` and `irrigation` keys are ignored entirely; and
with the `plot` key present and no non-empty list the call behaves exactly
as the single wrapped group. -/
theorem c10_legacy_shape :
    (∀ beh d op s, d.plotKey = none → d.plots.getD [] = [] →
       register beh d op s
         = register beh ⟨d.farmer, d.plots, none, none, none⟩ op s
     ∧ (∀ r, (register beh d op s).2.2 = .ok r → r.created_entities = []))
  ∧ (∀ beh d op s gs, d.plots = some gs → gs ≠ [] → ∀ pk irr,
       register beh { d with plotKey := pk, irrigation := irr } op s
         = register beh d op s)
  ∧ (∀ beh d op s pv, d.plotKey = some pv → d.plots.getD [] = [] →
       register beh d op s
         = register beh ⟨d.farmer, some [⟨pv, d.farm, d.irrigation⟩], none,
             d.farm, none⟩ op s) := by
  refine ⟨?_, ?_, ?_⟩
  · intro beh d op s h1 h2
    have hg : normalizeGroups d = [] := by
      simp [normalizeGroups, h1, h2]
    have hg2 : normalizeGroups ⟨d.farmer, d.plots, none, none, none⟩ = [] := by
      simp [normalizeGroups, h2]
    have hb : registerBody beh d op ⟨s, []⟩
        = registerBody beh ⟨d.farmer, d.plots, none, none, none⟩ op ⟨s, []⟩ := by
      unfold registerBody
      simp only [hg, hg2, processGroups_nil]
    constructor
    · unfold register
      rw [hb]
    · intro r hr
      unfold register at hr
      cases hbr : registerBody beh d op ⟨s, []⟩ with
      | error e => rw [hbr] at hr; exact Except.noConfusion hr
      | ok pr =>
          obtain ⟨r0, st'⟩ := pr
          rw [hbr] at hr
          simp only [Except.ok.injEq] at hr
          subst hr
          unfold registerBody at hbr
          simp only [hg, processGroups_nil] at hbr
          cases hf : createFarmer (d.farmer.getD []) op ⟨s, []⟩ with
          | error e => rw [hf] at hbr; exact Except.noConfusion hbr
          | ok pr2 =>
              obtain ⟨farmer, st1⟩ := pr2
              rw [hf] at hbr
              simp only [Except.ok.injEq, Prod.mk.injEq] at hbr
              obtain ⟨hb1, hb2⟩ := hbr
              rw [← hb1]
  · intro beh d op s gs hgs hne pk irr
    have hie : gs.isEmpty = false := by
      cases gs with
      | nil => exact absurd rfl hne
      | cons a t => rfl
    have hg : normalizeGroups { d with plotKey := pk, irrigation := irr }
        = normalizeGroups d := by
      simp [normalizeGroups, hgs, hie]
    unfold register
    have hb : registerBody beh { d with plotKey := pk, irrigation := irr } op ⟨s, []⟩
        = registerBody beh d op ⟨s, []⟩ := by
      unfold registerBody
      simp only [hg]
    rw [hb]
  · intro beh d op s pv h1 h2
    have hg : normalizeGroups d = [⟨pv, d.farm, d.irrigation⟩] := by
      simp [normalizeGroups, h1, h2]
    have hg2 : normalizeGroups ⟨d.farmer, some [⟨pv, d.farm, d.irrigation⟩], none,
        d.farm, none⟩ = [⟨pv, d.farm, d.irrigation⟩] := by
      simp [normalizeGroups]
    unfold register
    have hb : registerBody beh d op ⟨s, []⟩
        = registerBody beh ⟨d.farmer, some [⟨pv, d.farm, d.irrigation⟩], none,
            d.farm, none⟩ op ⟨s, []⟩ := by
      unfold registerBody
      simp only [hg, hg2]
    rw [hb]

/-- Witness for C10 at concrete requests: a request with farm and
irrigation blocks but no plot key behaves as if they were absent and
creates nothing; a non-empty plots list makes the legacy plot and
irrigation keys irrelevant; a wrapped legacy request equals its one-group
normal form. -/
theorem c10_legacy_shape_w :
    register behT dLegacyFarmOnly (some opA) store0
      = register behT ⟨dLegacyFarmOnly.farmer, dLegacyFarmOnly.plots, none, none, none⟩
          (some opA) store0
  ∧ (register behT dLegacyFarmOnly (some opA) store0).2.2.map
      (fun r => r.created_entities) = .ok []
  ∧ register behT
      { dOnePlot with plotKey := some none, irrigation := some [("k", .vStr "v")] }
      (some opA) store0
      = register behT dOnePlot (some opA) store0
  ∧ register behT ⟨some farmerD, none, some (some plotD), none, none⟩ (some opA) store0
      = register behT ⟨some farmerD, some [⟨some plotD, none, none⟩], none,
          none, none⟩ (some opA) store0 := by
  refine ⟨?_, ?_, ?_, ?_⟩
  · exact ((c10_legacy_shape.1 behT dLegacyFarmOnly (some opA) store0) rfl rfl).1
  · have h := ((c10_legacy_shape.1 behT dLegacyFarmOnly (some opA) store0) rfl rfl).2
    cases hres : (register behT dLegacyFarmOnly (some opA) store0).2.2 with
    | ok r => simp [Except.map, h r hres]
    | error e =>
        exfalso
        have hd : isErr (register behT dLegacyFarmOnly (some opA) store0).2.2 = false := by
          decide
        rw [hres] at hd
        simp [isErr] at hd
  · exact c10_legacy_shape.2.1 behT dOnePlot (some opA) store0
      [⟨some plotD, none, none⟩] rfl (by simp) (some none) (some [("k", .vStr "v")])
  · exact c10_legacy_shape.2.2 behT
      ⟨some farmerD, none, some (some plotD), none, none⟩ (some opA) store0
      (some plotD) rfl rfl
